import Mathlib

/-!
Verification of the URL-shortener service (`src/`): a shallow embedding of the
persistence gateway (`mongo_service.py`), the retry/backoff wrapper
(`utils.py`) and the four endpoint handlers (`urls_shortener.py`), together
with theorems settling the specification claims.

Modelling conventions:
* Machine floats for backoff delays are replaced by exact naturals counting
  tenths of a second: the reference delays 0.1, 0.2, ..., 10 become
  1, 2, ..., 100.  Doubling and comparison against the ceiling behave
  identically to the Python floats on all reachable values.
* Randomness (`random.choice`) is an oracle `rand : Nat → Nat` consumed one
  draw at a time; a draw selects index `rand i % 62` of the allowed alphabet.
* Storage I/O may fail: the world carries `failAt : Nat → Option Exc`, an
  injection schedule indexed by the running count of storage calls.  The
  scheduled exception is raised instead of executing the call, which models
  connectivity failures as well as a concurrent writer making an insert
  raise `DuplicateKey`.
* Python exceptions become the `Exc` inductive; a handler returns
  `Except Exc HandlerResult`, where an `Except.error` models an exception
  propagating out of the handler body.
* Unbounded loops (`while True` rejection sampling, the backoff `while`) take
  explicit fuel and return `Option`; `none` models divergence and is proved
  unreachable where the claims need it.
-/

/-- JSON values, used for request bodies and `web.json_response` payloads. -/
inductive Json where
  | null : Json
  | bool (b : Bool) : Json
  | num (n : Nat) : Json
  | str (s : String) : Json
  | arr (xs : List Json) : Json
  | obj (fields : List (String × Json)) : Json
deriving Repr

/-- Field values stored in a url-mapping document: strings or integers. -/
inductive Val where
  | s (v : String) : Val
  | n (v : Nat) : Val
deriving DecidableEq, Repr

/-- Python truthiness of a document field value (`bool("") = False`, `bool(0) = False`). -/
def Val.truthy : Val → Bool
  | .s v => v ≠ ""
  | .n v => v ≠ 0

/-- Python truthiness of an optional value (`None` is falsy). -/
def truthyOpt : Option Val → Bool
  | none => false
  | some v => v.truthy

/-- Exceptions that can propagate out of a handler body: `json.JSONDecodeError`,
pydantic `ValidationError` (carrying one `(field, message)` pair per violation),
pymongo `DuplicateKeyError`, and any other unclassified exception. -/
inductive Exc where
  | jsonDecodeError : Exc
  | validationError (errs : List (String × String)) : Exc
  | duplicateKey : Exc
  | transient (msg : String) : Exc
deriving DecidableEq, Repr

/-- Body of an HTTP response: `web.Response(text=...)` or `web.json_response(...)`. -/
inductive Body where
  | text (s : String) : Body
  | json (j : Json) : Body
deriving Repr

/-- An HTTP response as built by the handlers. -/
structure Response where
  status : Nat
  body : Body
deriving Repr

/-- Outcome a handler delivers to the HTTP boundary: a plain response, or a
redirect (the code raises `web.HTTPFound(long_url)`, which aiohttp turns into a
3xx redirect to `long_url`). -/
inductive HandlerResult where
  | resp (r : Response) : HandlerResult
  | redirect (location : String) : HandlerResult
deriving Repr

/-- A url-mapping document as stored in the collection (`insert_url_mapping`
creates `{'short_url_path': ..., 'long_url': ..., 'visits': 0}`). -/
structure Mapping where
  short_url_path : String
  long_url : String
  visits : Nat
deriving DecidableEq, Repr

namespace MongoService

/-- Document field access by key name, mirroring the dynamic key-based access
of `_find_one_by_key_value`; an unknown key behaves like a missing field. -/
def Mapping.get (m : Mapping) (key : String) : Option Val :=
  if key = "short_url_path" then some (.s m.short_url_path)
  else if key = "long_url" then some (.s m.long_url)
  else if key = "visits" then some (.n m.visits)
  else none

/-- Translation of `MongoService._find_one_by_key_value`: find the first
document whose `find_key` field equals the string `value` and return its
`selected_key` field, or `none` if no document matches. -/
def find_one_by_key_value (col : List Mapping) (find_key value selected_key : String) :
    Option Val :=
  match col.find? (fun m => Mapping.get m find_key == some (.s value)) with
  | some m => Mapping.get m selected_key
  | none => none

/-- Translation of `MongoService.insert_url_mapping`: insert
`{short_url_path, long_url, visits: 0}`; the unique indexes on
`short_url_path` and `long_url` make the insert raise `DuplicateKey` when
either value is already present. -/
def insert_url_mapping (col : List Mapping) (short_url_path long_url : String) :
    Except Exc (List Mapping) :=
  if col.any (fun m => m.short_url_path == short_url_path) ||
     col.any (fun m => m.long_url == long_url) then
    .error .duplicateKey
  else
    .ok (col ++ [⟨short_url_path, long_url, 0⟩])

/-- Translation of `MongoService.is_short_url_path_exist`
(`bool(find_one(...))`, so a falsy field value also counts as absent). -/
def is_short_url_path_exist (col : List Mapping) (path : String) : Bool :=
  truthyOpt (find_one_by_key_value col "short_url_path" path "short_url_path")

/-- Translation of `MongoService.find_short_url_path_by_long_url`. -/
def find_short_url_path_by_long_url (col : List Mapping) (long_url : String) : Option Val :=
  find_one_by_key_value col "long_url" long_url "short_url_path"

/-- Translation of `MongoService.find_long_url_by_short_url_path`. -/
def find_long_url_by_short_url_path (col : List Mapping) (short_url_path : String) : Option Val :=
  find_one_by_key_value col "short_url_path" short_url_path "long_url"

/-- Translation of `MongoService.increment_short_url_path_counter`:
`update_one({'short_url_path': p}, {'$inc': {'visits': 1}})` adds 1 to the
`visits` of the first matching document and is a no-op when none matches. -/
def increment_short_url_path_counter : List Mapping → String → List Mapping
  | [], _ => []
  | m :: rest, p =>
    if m.short_url_path == p then { m with visits := m.visits + 1 } :: rest
    else m :: increment_short_url_path_counter rest p

/-- Translation of `MongoService.find_short_url_path_visits` (despite the
`-> int` annotation the Python returns `None` when the path is unknown). -/
def find_short_url_path_visits (col : List Mapping) (short_url_path : String) : Option Val :=
  find_one_by_key_value col "short_url_path" short_url_path "visits"

end MongoService

/-- World state threaded through an execution: the stored collection, the
randomness oracle with its cursor, the storage-failure injection schedule with
the running storage-call counter, and the delay state of the backoff wrapper
around `_generate_unique_short_url_path` (a closure variable shared across
calls).  Delays are in tenths of a second. -/
structure W where
  col : List Mapping
  rand : Nat → Nat
  randIdx : Nat
  failAt : Nat → Option Exc
  callIdx : Nat
  innerDelay : Nat

/-- Storage call with failure injection: if the schedule assigns an exception
to this call index the call raises it; otherwise the pure gateway operation
runs on the collection.  Every storage call advances the call counter. -/
def stRun {α : Type} (w : W) (op : List Mapping → Except Exc (α × List Mapping)) :
    Except Exc α × W :=
  match w.failAt w.callIdx with
  | some e => (.error e, { w with callIdx := w.callIdx + 1 })
  | none =>
    match op w.col with
    | .error e => (.error e, { w with callIdx := w.callIdx + 1 })
    | .ok (a, col') => (.ok a, { w with col := col', callIdx := w.callIdx + 1 })

/-- Networked `find_short_url_path_by_long_url`. -/
def callFindPathByLong (long_url : String) (w : W) : Except Exc (Option Val) × W :=
  stRun w (fun col => .ok (MongoService.find_short_url_path_by_long_url col long_url, col))

/-- Networked `find_long_url_by_short_url_path`. -/
def callFindLongByPath (path : String) (w : W) : Except Exc (Option Val) × W :=
  stRun w (fun col => .ok (MongoService.find_long_url_by_short_url_path col path, col))

/-- Networked `is_short_url_path_exist`. -/
def callIsExist (path : String) (w : W) : Except Exc Bool × W :=
  stRun w (fun col => .ok (MongoService.is_short_url_path_exist col path, col))

/-- Networked `insert_url_mapping`. -/
def callInsert (path long_url : String) (w : W) : Except Exc Unit × W :=
  stRun w (fun col =>
    match MongoService.insert_url_mapping col path long_url with
    | .error e => .error e
    | .ok col' => .ok ((), col'))

/-- Networked `increment_short_url_path_counter`. -/
def callIncrement (path : String) (w : W) : Except Exc Unit × W :=
  stRun w (fun col => .ok ((), MongoService.increment_short_url_path_counter col path))

/-- Networked `find_short_url_path_visits`. -/
def callFindVisits (path : String) (w : W) : Except Exc (Option Val) × W :=
  stRun w (fun col => .ok (MongoService.find_short_url_path_visits col path, col))

/-- Response returned by the backoff wrapper for an unparseable request body. -/
def invalidJsonResponse : Response :=
  ⟨400, .text "Invalid JSON data in the request body."⟩

/-- Response returned by the backoff wrapper for a pydantic `ValidationError`:
`{'errors': [{'field': ..., 'message': ...}, ...]}` with status 400. -/
def validationErrorsResponse (errs : List (String × String)) : Response :=
  ⟨400, .json (.obj [("errors",
    .arr (errs.map (fun e => .obj [("field", .str e.1), ("message", .str e.2)])))])⟩

/-- Response returned by the backoff wrapper when retries are exhausted. -/
def internalServerErrorResponse : Response :=
  ⟨500, .text "An internal server error occurred."⟩

/-- Observable outcome of one invocation of a `backoff()`-wrapped operation:
the result (`inl` the wrapped operation's return value, `inr` a response built
by the wrapper itself), the sequence of delays slept, the number of times the
wrapped operation was executed, and the final value of the closure variable
`current_sleep_time` (which seeds the next invocation). -/
structure BOut (α : Type) where
  result : α ⊕ Response
  slept : List Nat
  attempts : Nat
  delay : Nat
deriving Repr

/-- Translation of the `while` loop inside `utils.backoff` (`inner`):
while `current_sleep_time < border_sleep_time`, run the wrapped operation;
return its result on success; on `json.JSONDecodeError` or `ValidationError`
return an immediate 400 response; on any other exception log, sleep
`current_sleep_time`, multiply it by `factor` and loop.  Once the delay
reaches the ceiling the loop exits and a generic 500 response is returned.
`fuel` bounds the number of iterations; `none` models non-termination and is
unreachable whenever the delay doubles towards the ceiling. -/
def backoffLoop {σ α : Type} (func : σ → Option (Except Exc α × σ)) (factor border : Nat) :
    Nat → Nat → Nat → List Nat → σ → Option (BOut α × σ)
  | 0, _, _, _, _ => none
  | fuel + 1, cur, att, slept, s =>
    if cur < border then
      match func s with
      | none => none
      | some (.ok a, s') => some (⟨.inl a, slept, att + 1, cur⟩, s')
      | some (.error .jsonDecodeError, s') =>
        some (⟨.inr invalidJsonResponse, slept, att + 1, cur⟩, s')
      | some (.error (.validationError errs), s') =>
        some (⟨.inr (validationErrorsResponse errs), slept, att + 1, cur⟩, s')
      | some (.error _, s') =>
        backoffLoop func factor border fuel (cur * factor) (att + 1) (slept ++ [cur]) s'
    else
      some (⟨.inr internalServerErrorResponse, slept, att, cur⟩, s)

/-- Default `start_sleep_time=0.1` of `backoff`, in tenths of a second. -/
def startSleepTime : Nat := 1

/-- Default `factor=2` of `backoff`. -/
def backoffFactor : Nat := 2

/-- Default `border_sleep_time=10` of `backoff`, in tenths of a second. -/
def borderSleepTime : Nat := 100

theorem backoffLoop_succ {σ α : Type} (func : σ → Option (Except Exc α × σ))
    (factor border fuel cur att : Nat) (slept : List Nat) (s : σ) :
    backoffLoop func factor border (fuel + 1) cur att slept s =
      if cur < border then
        match func s with
        | none => none
        | some (.ok a, s') => some (⟨.inl a, slept, att + 1, cur⟩, s')
        | some (.error .jsonDecodeError, s') =>
          some (⟨.inr invalidJsonResponse, slept, att + 1, cur⟩, s')
        | some (.error (.validationError errs), s') =>
          some (⟨.inr (validationErrorsResponse errs), slept, att + 1, cur⟩, s')
        | some (.error _, s') =>
          backoffLoop func factor border fuel (cur * factor) (att + 1) (slept ++ [cur]) s'
      else
        some (⟨.inr internalServerErrorResponse, slept, att, cur⟩, s) := rfl

/-- Json value of a stored field as serialized by `web.json_response`
(`None` serializes to JSON `null`). -/
def valToJson : Option Val → Json
  | none => .null
  | some (.s s) => .str s
  | some (.n k) => .num k

/-- Field lookup in a JSON object (`dict.get`). -/
def lookupField (fields : List (String × Json)) (key : String) : Option Json :=
  (fields.find? (fun f => f.1 == key)).map (fun f => f.2)

/-- Modelled from the spec: pydantic is an external dependency (only the model
declaration `GenerateShortURLInput(long_url: AnyUrl)` is in `src/models.py`),
and the spec reads "Validate `long_url` is a syntactically valid URL and
non-empty".  A URL is taken to be syntactically valid when it has a non-empty
scheme, the separator `://`, and a non-empty remainder. -/
def schemeSplit : List Char → Option (List Char × List Char)
  | [] => none
  | ':' :: '/' :: '/' :: rest => some ([], rest)
  | c :: rest => (schemeSplit rest).map (fun p => (c :: p.1, p.2))

/-- Modelled from the spec: syntactic URL validity used by pydantic `AnyUrl`
(see `schemeSplit`); the empty string and scheme-less strings are invalid. -/
def isValidUrl (s : String) : Bool :=
  match schemeSplit s.toList with
  | some (scheme, rest) => !scheme.isEmpty && !rest.isEmpty
  | none => false

/-- Modelled from the spec: validation performed by
`GenerateShortURLInput(**data)` on a JSON object body — `none` when the input
is accepted, otherwise the `(field, message)` pairs carried by the raised
`ValidationError` ("failing validation yields a `ValidationError` listing
offending field(s)"). -/
def validationErrors (fields : List (String × Json)) : Option (List (String × String)) :=
  match lookupField fields "long_url" with
  | none => some [("long_url", "field required")]
  | some (.str s) =>
    if isValidUrl s then none else some [("long_url", "invalid or missing URL scheme")]
  | some _ => some [("long_url", "str type expected")]

/-- Reading `data.get('long_url')` after validation has passed: the validated
field is always a string (see `validationErrors`); other shapes, which cannot
reach this read, give the empty string. -/
def jsonFieldString (data : Json) (key : String) : String :=
  match data with
  | .obj fields =>
    match lookupField fields key with
    | some (.str s) => s
    | _ => ""
  | _ => ""

namespace URLShortenerApp

/-- Translation of `allowed_characters = string.ascii_letters + string.digits`. -/
def allowed_characters : List Char :=
  "abcdefghijklmnopqrstuvwxyzABCDEFGHIJKLMNOPQRSTUVWXYZ0123456789".toList

/-- Link length of the deployed application (`main.py` passes `link_length=5`). -/
def linkLength : Nat := 5

/-- Translation of `URLShortenerApp._generate_short_url_path`: draw
`linkLength` uniform choices from `allowed_characters`; the oracle value at
each cursor position selects the character. -/
def generate_short_url_path (w : W) : String × W :=
  (String.mk ((List.range linkLength).map
      (fun i => allowed_characters.getD (w.rand (w.randIdx + i) % 62) 'a')),
   { w with randIdx := w.randIdx + linkLength })

/-- Translation of the `while True` rejection-sampling loop in
`URLShortenerApp._generate_unique_short_url_path`: draw a path, return it if
the existence check says it is absent, otherwise draw again.  An exception
raised by the existence check propagates out of the loop.  `none` models
divergence (the Python loop has no bound on attempts). -/
def unique_path_loop : Nat → W → Option (Except Exc String × W)
  | 0, _ => none
  | fuel + 1, w =>
    let pw := generate_short_url_path w
    match callIsExist pw.1 pw.2 with
    | (.error e, w2) => some (.error e, w2)
    | (.ok b, w2) => if b then unique_path_loop fuel w2 else some (.ok pw.1, w2)

/-- Translation of the `@backoff()`-wrapped `_generate_unique_short_url_path`:
the rejection-sampling loop run under its own backoff wrapper, whose
`current_sleep_time` closure variable is `W.innerDelay`. -/
def generate_unique_short_url_path (glFuel bFuel : Nat) (w : W) :
    Option (BOut String × W) :=
  match backoffLoop (fun w0 => unique_path_loop glFuel w0)
      backoffFactor borderSleepTime bFuel w.innerDelay 0 [] w with
  | none => none
  | some (out, w') => some (out, { w' with innerDelay := out.delay })

/-- Translation of `URLShortenerApp._generate_full_url`. -/
def generate_full_url (protocol domain path : String) : String :=
  protocol ++ "://" ++ domain ++ "/" ++ path

/-- Continuation of `generate_short_url` past the existing-mapping check:
generate a unique short path and insert the mapping.  When the inner backoff
wrapper has exhausted its retries it returns its 500 `Response` object, which
the Python code then passes to `insert_one` as the path; bson encoding of a
`Response` raises `InvalidDocument`, an unclassified exception. -/
def generate_and_insert (protocol domain : String) (glFuel bFuel : Nat)
    (long_url : String) (w : W) : Option (Except Exc HandlerResult × W) :=
  match generate_unique_short_url_path glFuel bFuel w with
  | none => none
  | some (out, w2) =>
    match out.result with
    | .inl p =>
      match callInsert p long_url w2 with
      | (.error e, w3) => (some (.error e, w3) : Option (Except Exc HandlerResult × W))
      | (.ok _, w3) =>
        some (.ok (.resp ⟨200, .json (.obj
          [("short_url", .str (generate_full_url protocol domain p))])⟩), w3)
    | .inr _ => some (.error (.transient "InvalidDocument"), w2)

/-- Translation of the body of `URLShortenerApp.generate_short_url`: parse the
request body (`request.json()` raises on malformed JSON), validate it
(`GenerateShortURLInput(**data)`; a non-mapping body makes the `**` expansion
raise `TypeError`, an unclassified exception), check `long_url` truthiness,
return the existing mapping when `find_short_url_path_by_long_url` yields a
truthy path (the found field is always a string), else generate and insert. -/
def generate_short_url_body (protocol domain : String) (glFuel bFuel : Nat)
    (req : Option Json) (w : W) : Option (Except Exc HandlerResult × W) :=
  match req with
  | none => some (.error .jsonDecodeError, w)
  | some data =>
    match data with
    | .obj fields =>
      match validationErrors fields with
      | some errs => some (.error (.validationError errs), w)
      | none =>
        let long_url := jsonFieldString (.obj fields) "long_url"
        if long_url = "" then
          some (.ok (.resp ⟨400, .text "long_url parameter was not specified"⟩), w)
        else
          match callFindPathByLong long_url w with
          | (.error e, w1) => some (.error e, w1)
          | (.ok r, w1) =>
            match r with
            | some (.s p) =>
              if p = "" then generate_and_insert protocol domain glFuel bFuel long_url w1
              else
                some (.ok (.resp ⟨200, .json (.obj
                  [("short_url", .str (generate_full_url protocol domain p))])⟩), w1)
            | _ => generate_and_insert protocol domain glFuel bFuel long_url w1
    | _ => some (.error (.transient "TypeError"), w)

/-- Translation of the body of `URLShortenerApp.redirect_to_original_url`.
This endpoint is NOT decorated with `@backoff()` in the source: its body is
the deployed handler, and a raised exception propagates to the HTTP boundary
as the `Except.error` case. -/
def redirect_to_original_url (path : String) (w : W) : Except Exc HandlerResult × W :=
  if path = "" then
    (.ok (.resp ⟨400, .text "short url path was not provided"⟩), w)
  else
    match callFindLongByPath path w with
    | (.error e, w1) => (.error e, w1)
    | (.ok (some (.s lu)), w1) =>
      if lu = "" then (.ok (.resp ⟨400, .text "urls were not found"⟩), w1)
      else
        match callIncrement path w1 with
        | (.error e, w2) => (.error e, w2)
        | (.ok _, w2) => (.ok (.redirect lu), w2)
    | (.ok _, w1) => (.ok (.resp ⟨400, .text "urls were not found"⟩), w1)

/-- Translation of the body of `URLShortenerApp.get_long_url`. -/
def get_long_url_body (path : String) (w : W) : Option (Except Exc HandlerResult × W) :=
  if path = "" then
    some (.ok (.resp ⟨400, .text "short url path was not provided"⟩), w)
  else
    match callFindLongByPath path w with
    | (.error e, w1) => some (.error e, w1)
    | (.ok (some (.s lu)), w1) =>
      if lu = "" then some (.ok (.resp ⟨400, .text "long url doesn\x27t exist"⟩), w1)
      else some (.ok (.resp ⟨200, .json (.obj [("long_url", .str lu)])⟩), w1)
    | (.ok _, w1) => some (.ok (.resp ⟨400, .text "long url doesn\x27t exist"⟩), w1)

/-- Translation of the body of `URLShortenerApp.get_short_url_visits`: no
not-found branch exists; the looked-up value (possibly `None`) is serialized
directly into the JSON response. -/
def get_short_url_visits_body (path : String) (w : W) :
    Option (Except Exc HandlerResult × W) :=
  if path = "" then
    some (.ok (.resp ⟨400, .text "short url path was not provided"⟩), w)
  else
    match callFindVisits path w with
    | (.error e, w1) => some (.error e, w1)
    | (.ok v, w1) =>
      some (.ok (.resp ⟨200, .json (.obj [("visits", valToJson v)])⟩), w1)

/-- Deployed `generate_short_url`: the body under its `@backoff()` wrapper,
whose `current_sleep_time` is the threaded argument `d`. -/
def generate_short_url (protocol domain : String) (glFuel bFuel : Nat)
    (req : Option Json) (w : W) (d : Nat) : Option (BOut HandlerResult × W) :=
  backoffLoop (generate_short_url_body protocol domain glFuel bFuel req)
    backoffFactor borderSleepTime bFuel d 0 [] w

/-- Deployed `get_long_url`: the body under its `@backoff()` wrapper. -/
def get_long_url (bFuel : Nat) (path : String) (w : W) (d : Nat) :
    Option (BOut HandlerResult × W) :=
  backoffLoop (get_long_url_body path) backoffFactor borderSleepTime bFuel d 0 [] w

/-- Deployed `get_short_url_visits`: the body under its `@backoff()` wrapper. -/
def get_short_url_visits (bFuel : Nat) (path : String) (w : W) (d : Nat) :
    Option (BOut HandlerResult × W) :=
  backoffLoop (get_short_url_visits_body path) backoffFactor borderSleepTime bFuel d 0 [] w

end URLShortenerApp

/-- Per-wrapped-operation-definition `current_sleep_time` closure variables of
the three `@backoff()`-decorated endpoint handlers (`redirect_to_original_url`
is not decorated; the wrapper around `_generate_unique_short_url_path` keeps
its state in `W.innerDelay`). -/
structure Delays where
  generateDelay : Nat
  getLongDelay : Nat
  visitsDelay : Nat
deriving Repr

/-- Delay state at application start: every closure starts at
`start_sleep_time`. -/
def Delays.fresh : Delays := ⟨startSleepTime, startSleepTime, startSleepTime⟩

/-- Full system state: the world plus the endpoint delay closures. -/
structure Sys where
  w : W
  delays : Delays

/-- An invocation of one of the four routed endpoint operations. -/
inductive OpCall where
  | generateOp (req : Option Json) : OpCall
  | redirectOp (path : String) : OpCall
  | getLongOp (path : String) : OpCall
  | visitsOp (path : String) : OpCall

/-- Default fuels used by the deployed system (generous bounds; the backoff
loop exhausts its retries after at most 7 iterations from any reachable
delay). -/
def glFuelDefault : Nat := 64

/-- Default backoff-loop fuel of the deployed system. -/
def bFuelDefault : Nat := 16

/-- Execution of one endpoint call against the system state, threading the
shared delay closures (this is where the `nonlocal current_sleep_time` of
`utils.backoff` persists across invocations).  A call whose loops run out of
fuel (modelled divergence) leaves no observable final state; the state is
kept unchanged. -/
def runOp (protocol domain : String) (op : OpCall) (sys : Sys) : Sys :=
  match op with
  | .generateOp req =>
    match URLShortenerApp.generate_short_url protocol domain glFuelDefault bFuelDefault
        req sys.w sys.delays.generateDelay with
    | none => sys
    | some (out, w') => ⟨w', { sys.delays with generateDelay := out.delay }⟩
  | .redirectOp p => ⟨(URLShortenerApp.redirect_to_original_url p sys.w).2, sys.delays⟩
  | .getLongOp p =>
    match URLShortenerApp.get_long_url bFuelDefault p sys.w sys.delays.getLongDelay with
    | none => sys
    | some (out, w') => ⟨w', { sys.delays with getLongDelay := out.delay }⟩
  | .visitsOp p =>
    match URLShortenerApp.get_short_url_visits bFuelDefault p sys.w
        sys.delays.visitsDelay with
    | none => sys
    | some (out, w') => ⟨w', { sys.delays with visitsDelay := out.delay }⟩

/-- Execution of a sequence of endpoint calls. -/
def runOps (protocol domain : String) (ops : List OpCall) (sys : Sys) : Sys :=
  ops.foldl (fun s op => runOp protocol domain op s) sys

/-- Visits counter of the document a lookup on `p` observes (the first one
whose `short_url_path` is `p`), if any. -/
def visitsOf (col : List Mapping) (p : String) : Option Nat :=
  (col.find? (fun m => m.short_url_path == p)).map (fun m => m.visits)

/-- Number of mapping records stored for the long URL `u`. -/
def countLong (u : String) (col : List Mapping) : Nat :=
  (col.filter (fun m => m.long_url == u)).length

/-- Visit counters never decrease between two collection states: every stored
path keeps a counter at least as large as before. -/
def MonoList (c c' : List Mapping) : Prop :=
  ∀ p v, visitsOf c p = some v → ∃ v', visitsOf c' p = some v' ∧ v ≤ v'

/-- Request body `{"long_url": u}` for the generate endpoint. -/
def genReq (u : String) : Option Json := some (.obj [("long_url", .str u)])

/-- Generic exceptions (neither `JSONDecodeError` nor `ValidationError`),
which the backoff wrapper retries. -/
def Exc.isUnclassified : Exc → Bool
  | .duplicateKey => true
  | .transient _ => true
  | _ => false

theorem mget_short (m : Mapping) :
    MongoService.Mapping.get m "short_url_path" = some (.s m.short_url_path) := rfl

theorem mget_long (m : Mapping) :
    MongoService.Mapping.get m "long_url" = some (.s m.long_url) := rfl

theorem mget_visits (m : Mapping) :
    MongoService.Mapping.get m "visits" = some (.n m.visits) := rfl

theorem pred_long_eq (u : String) :
    (fun (m : Mapping) => MongoService.Mapping.get m "long_url" == some (Val.s u)) =
      (fun m => m.long_url == u) := by
  funext m
  rw [mget_long, Bool.eq_iff_iff]
  simp

theorem pred_short_eq (p : String) :
    (fun (m : Mapping) => MongoService.Mapping.get m "short_url_path" == some (Val.s p)) =
      (fun m => m.short_url_path == p) := by
  funext m
  rw [mget_short, Bool.eq_iff_iff]
  simp

theorem find_by_long_eq (col : List Mapping) (u : String) :
    MongoService.find_short_url_path_by_long_url col u =
      (col.find? (fun m => m.long_url == u)).map (fun m => Val.s m.short_url_path) := by
  unfold MongoService.find_short_url_path_by_long_url MongoService.find_one_by_key_value
  rw [pred_long_eq]
  cases col.find? (fun m => m.long_url == u) <;> simp [mget_short]

theorem find_long_by_path_eq (col : List Mapping) (p : String) :
    MongoService.find_long_url_by_short_url_path col p =
      (col.find? (fun m => m.short_url_path == p)).map (fun m => Val.s m.long_url) := by
  unfold MongoService.find_long_url_by_short_url_path MongoService.find_one_by_key_value
  rw [pred_short_eq]
  cases col.find? (fun m => m.short_url_path == p) <;> simp [mget_long]

theorem find_visits_eq (col : List Mapping) (p : String) :
    MongoService.find_short_url_path_visits col p =
      (col.find? (fun m => m.short_url_path == p)).map (fun m => Val.n m.visits) := by
  unfold MongoService.find_short_url_path_visits MongoService.find_one_by_key_value
  rw [pred_short_eq]
  cases col.find? (fun m => m.short_url_path == p) <;> simp [mget_visits]

theorem is_exist_eq (col : List Mapping) (p : String) :
    MongoService.is_short_url_path_exist col p =
      match col.find? (fun m => m.short_url_path == p) with
      | some m => decide (m.short_url_path ≠ "")
      | none => false := by
  unfold MongoService.is_short_url_path_exist MongoService.find_one_by_key_value
  rw [pred_short_eq]
  cases col.find? (fun m => m.short_url_path == p) <;>
    simp [truthyOpt, Val.truthy, mget_short]

theorem not_exist_any_eq_false (col : List Mapping) (p : String) (hne : p ≠ "")
    (h : MongoService.is_short_url_path_exist col p = false) :
    col.any (fun m => m.short_url_path == p) = false := by
  rw [is_exist_eq] at h
  rw [List.any_eq_false]
  intro m hm hpm
  rcases hf : col.find? (fun m => m.short_url_path == p) with _ | m0
  · rw [List.find?_eq_none] at hf
    exact hf m hm hpm
  · rw [hf] at h
    have hp0 : m0.short_url_path = p := by
      have := List.find?_some hf
      simpa using this
    simp [hp0, hne] at h

theorem find_by_long_none_any (col : List Mapping) (u : String)
    (h : col.find? (fun m => m.long_url == u) = none) :
    col.any (fun m => m.long_url == u) = false := by
  rw [List.find?_eq_none] at h
  rw [List.any_eq_false]
  exact h

theorem insert_ok (col : List Mapping) (p u : String)
    (hshort : col.any (fun m => m.short_url_path == p) = false)
    (hlong : col.any (fun m => m.long_url == u) = false) :
    MongoService.insert_url_mapping col p u = .ok (col ++ [⟨p, u, 0⟩]) := by
  unfold MongoService.insert_url_mapping
  rw [hshort, hlong]
  rfl

theorem countLong_pos_of_find (col : List Mapping) (u : String) (m : Mapping)
    (h : col.find? (fun m => m.long_url == u) = some m) : 1 ≤ countLong u col := by
  unfold countLong
  have hm := List.mem_of_find?_eq_some h
  have hpm := List.find?_some h
  have : m ∈ col.filter (fun m => m.long_url == u) := by
    rw [List.mem_filter]
    exact ⟨hm, hpm⟩
  exact List.length_pos.mpr (fun hnil => by simp [hnil] at this)

theorem countLong_zero_of_find_none (col : List Mapping) (u : String)
    (h : col.find? (fun m => m.long_url == u) = none) : countLong u col = 0 := by
  unfold countLong
  rw [List.find?_eq_none] at h
  rw [List.length_eq_zero, List.filter_eq_nil_iff]
  exact h

theorem countLong_append (u : String) (col l : List Mapping) :
    countLong u (col ++ l) = countLong u col + countLong u l := by
  unfold countLong
  rw [List.filter_append, List.length_append]

theorem backoffLoop_stop {σ α : Type} (func : σ → Option (Except Exc α × σ))
    (factor border fuel cur att : Nat) (slept : List Nat) (s : σ)
    (h : ¬ cur < border) :
    backoffLoop func factor border (fuel + 1) cur att slept s =
      some (⟨.inr internalServerErrorResponse, slept, att, cur⟩, s) := by
  rw [backoffLoop_succ, if_neg h]

theorem backoffLoop_ok {σ α : Type} (func : σ → Option (Except Exc α × σ))
    (factor border fuel cur att : Nat) (slept : List Nat) (s s' : σ) (a : α)
    (h : cur < border) (hf : func s = some (.ok a, s')) :
    backoffLoop func factor border (fuel + 1) cur att slept s =
      some (⟨.inl a, slept, att + 1, cur⟩, s') := by
  rw [backoffLoop_succ, if_pos h, hf]

theorem backoffLoop_none {σ α : Type} (func : σ → Option (Except Exc α × σ))
    (factor border fuel cur att : Nat) (slept : List Nat) (s : σ)
    (h : cur < border) (hf : func s = none) :
    backoffLoop func factor border (fuel + 1) cur att slept s = none := by
  rw [backoffLoop_succ, if_pos h, hf]

theorem backoffLoop_json {σ α : Type} (func : σ → Option (Except Exc α × σ))
    (factor border fuel cur att : Nat) (slept : List Nat) (s s' : σ)
    (h : cur < border) (hf : func s = some (.error .jsonDecodeError, s')) :
    backoffLoop func factor border (fuel + 1) cur att slept s =
      some (⟨.inr invalidJsonResponse, slept, att + 1, cur⟩, s') := by
  rw [backoffLoop_succ, if_pos h, hf]

theorem backoffLoop_validation {σ α : Type} (func : σ → Option (Except Exc α × σ))
    (factor border fuel cur att : Nat) (slept : List Nat) (s s' : σ)
    (errs : List (String × String))
    (h : cur < border) (hf : func s = some (.error (.validationError errs), s')) :
    backoffLoop func factor border (fuel + 1) cur att slept s =
      some (⟨.inr (validationErrorsResponse errs), slept, att + 1, cur⟩, s') := by
  rw [backoffLoop_succ, if_pos h, hf]

theorem backoffLoop_generic_step {σ α : Type} (func : σ → Option (Except Exc α × σ))
    (factor border fuel cur att : Nat) (slept : List Nat) (s s' : σ) (e : Exc)
    (h : cur < border) (he : e.isUnclassified = true)
    (hf : func s = some (.error e, s')) :
    backoffLoop func factor border (fuel + 1) cur att slept s =
      backoffLoop func factor border fuel (cur * factor) (att + 1) (slept ++ [cur]) s' := by
  rw [backoffLoop_succ, if_pos h, hf]
  cases e <;> simp [Exc.isUnclassified] at he ⊢

/-- Exhaustion of the backoff loop with default parameters: a wrapped
operation that fails with a generic exception on every attempt is executed
exactly 7 times, the slept delays are 0.1, 0.2, 0.4, 0.8, 1.6, 3.2, 6.4
seconds (1, 2, ..., 64 in tenths), and the invocation ends with the generic
500 response once the delay reaches 12.8 ≥ 10. -/
theorem backoffLoop_exhaust {σ α : Type} (func : σ → Option (Except Exc α × σ))
    (step : σ → σ) (Inv : σ → Prop)
    (hstep : ∀ s0, Inv s0 → Inv (step s0))
    (hf : ∀ s0, Inv s0 → ∃ e, e.isUnclassified = true ∧ func s0 = some (.error e, step s0))
    (fuel : Nat) (s : σ) (hs : Inv s) :
    backoffLoop func 2 100 (fuel + 8) 1 0 [] s =
      some (⟨.inr internalServerErrorResponse, [1, 2, 4, 8, 16, 32, 64], 7, 128⟩,
        step (step (step (step (step (step (step s))))))) := by
  have hs2 : Inv (step s) := hstep s hs
  have hs3 : Inv (step (step s)) := hstep _ hs2
  have hs4 : Inv (step (step (step s))) := hstep _ hs3
  have hs5 : Inv (step (step (step (step s)))) := hstep _ hs4
  have hs6 : Inv (step (step (step (step (step s))))) := hstep _ hs5
  have hs7 : Inv (step (step (step (step (step (step s)))))) := hstep _ hs6
  obtain ⟨e1, he1, hf1⟩ := hf s hs
  obtain ⟨e2, he2, hf2⟩ := hf (step s) hs2
  obtain ⟨e3, he3, hf3⟩ := hf (step (step s)) hs3
  obtain ⟨e4, he4, hf4⟩ := hf (step (step (step s))) hs4
  obtain ⟨e5, he5, hf5⟩ := hf (step (step (step (step s)))) hs5
  obtain ⟨e6, he6, hf6⟩ := hf (step (step (step (step (step s))))) hs6
  obtain ⟨e7, he7, hf7⟩ := hf (step (step (step (step (step (step s)))))) hs7
  calc backoffLoop func 2 100 (fuel + 8) 1 0 [] s
      = backoffLoop func 2 100 (fuel + 7) 2 1 [1] (step s) :=
        backoffLoop_generic_step func 2 100 (fuel + 7) 1 0 [] s (step s) e1
          (by decide) he1 hf1
    _ = backoffLoop func 2 100 (fuel + 6) 4 2 [1, 2] (step (step s)) :=
        backoffLoop_generic_step func 2 100 (fuel + 6) 2 1 [1] (step s)
          (step (step s)) e2 (by decide) he2 hf2
    _ = backoffLoop func 2 100 (fuel + 5) 8 3 [1, 2, 4] (step (step (step s))) :=
        backoffLoop_generic_step func 2 100 (fuel + 5) 4 2 [1, 2] (step (step s))
          (step (step (step s))) e3 (by decide) he3 hf3
    _ = backoffLoop func 2 100 (fuel + 4) 16 4 [1, 2, 4, 8]
          (step (step (step (step s)))) :=
        backoffLoop_generic_step func 2 100 (fuel + 4) 8 3 [1, 2, 4]
          (step (step (step s))) (step (step (step (step s)))) e4 (by decide) he4 hf4
    _ = backoffLoop func 2 100 (fuel + 3) 32 5 [1, 2, 4, 8, 16]
          (step (step (step (step (step s))))) :=
        backoffLoop_generic_step func 2 100 (fuel + 3) 16 4 [1, 2, 4, 8]
          (step (step (step (step s)))) (step (step (step (step (step s))))) e5
          (by decide) he5 hf5
    _ = backoffLoop func 2 100 (fuel + 2) 64 6 [1, 2, 4, 8, 16, 32]
          (step (step (step (step (step (step s)))))) :=
        backoffLoop_generic_step func 2 100 (fuel + 2) 32 5 [1, 2, 4, 8, 16]
          (step (step (step (step (step s))))) (step (step (step (step (step (step s))))))
          e6 (by decide) he6 hf6
    _ = backoffLoop func 2 100 (fuel + 1) 128 7 [1, 2, 4, 8, 16, 32, 64]
          (step (step (step (step (step (step (step s))))))) :=
        backoffLoop_generic_step func 2 100 (fuel + 1) 64 6 [1, 2, 4, 8, 16, 32]
          (step (step (step (step (step (step s))))))
          (step (step (step (step (step (step (step s))))))) e7 (by decide) he7 hf7
    _ = some (⟨.inr internalServerErrorResponse, [1, 2, 4, 8, 16, 32, 64], 7, 128⟩,
          step (step (step (step (step (step (step s))))))) :=
        backoffLoop_stop func 2 100 fuel 128 7 [1, 2, 4, 8, 16, 32, 64]
          (step (step (step (step (step (step (step s))))))) (by decide)


/-- Delays never shrink across a backoff-loop invocation, the slept list only
grows, and the final `current_sleep_time` equals the starting one multiplied
by `factor` once per generic-failure retry. -/
theorem backoffLoop_delay_mono {σ α : Type} (func : σ → Option (Except Exc α × σ))
    (factor border : Nat) (hfac : 1 ≤ factor) :
    ∀ (fuel cur att : Nat) (slept : List Nat) (s : σ) (out : BOut α) (s' : σ),
      backoffLoop func factor border fuel cur att slept s = some (out, s') →
      cur ≤ out.delay ∧ slept.length ≤ out.slept.length ∧
        out.delay = cur * factor ^ (out.slept.length - slept.length) := by
  intro fuel
  induction fuel with
  | zero =>
    intro cur att slept s out s' h
    simp [backoffLoop] at h
  | succ n ih =>
    intro cur att slept s out s' h
    rw [backoffLoop_succ] at h
    by_cases hc : cur < border
    · rw [if_pos hc] at h
      rcases hfs : func s with _ | ⟨r, s1⟩ <;> rw [hfs] at h
      · simp at h
      · cases r with
        | ok a =>
          simp at h
          obtain ⟨h1, _⟩ := h
          rw [← h1]
          simp
        | error e =>
          cases e with
          | jsonDecodeError =>
            simp at h
            obtain ⟨h1, _⟩ := h
            rw [← h1]
            simp
          | validationError errs =>
            simp at h
            obtain ⟨h1, _⟩ := h
            rw [← h1]
            simp
          | duplicateKey =>
            simp only [] at h
            obtain ⟨ih1, ih2, ih3⟩ := ih (cur * factor) (att + 1) (slept ++ [cur]) s1 out s' h
            have hlen : slept.length + 1 ≤ out.slept.length := by simpa using ih2
            have hl : (slept ++ [cur]).length = slept.length + 1 := by simp
            have hexp : out.slept.length - (slept.length + 1) + 1 =
                out.slept.length - slept.length := by omega
            refine ⟨?_, by omega, ?_⟩
            · calc cur ≤ cur * factor := Nat.le_mul_of_pos_right cur hfac
                _ ≤ out.delay := ih1
            · rw [ih3, hl, Nat.mul_assoc, ← pow_succ', hexp]
          | transient msg =>
            simp only [] at h
            obtain ⟨ih1, ih2, ih3⟩ := ih (cur * factor) (att + 1) (slept ++ [cur]) s1 out s' h
            have hlen : slept.length + 1 ≤ out.slept.length := by simpa using ih2
            have hl : (slept ++ [cur]).length = slept.length + 1 := by simp
            have hexp : out.slept.length - (slept.length + 1) + 1 =
                out.slept.length - slept.length := by omega
            refine ⟨?_, by omega, ?_⟩
            · calc cur ≤ cur * factor := Nat.le_mul_of_pos_right cur hfac
                _ ≤ out.delay := ih1
            · rw [ih3, hl, Nat.mul_assoc, ← pow_succ', hexp]
    · rw [if_neg hc] at h
      simp at h
      obtain ⟨h1, _⟩ := h
      rw [← h1]
      simp

theorem callFindPathByLong_ok (u : String) (w : W) (h : w.failAt w.callIdx = none) :
    callFindPathByLong u w =
      (.ok (MongoService.find_short_url_path_by_long_url w.col u),
        { w with callIdx := w.callIdx + 1 }) := by
  simp [callFindPathByLong, stRun, h]

theorem callFindPathByLong_fail (u : String) (w : W) (e : Exc)
    (h : w.failAt w.callIdx = some e) :
    callFindPathByLong u w = (.error e, { w with callIdx := w.callIdx + 1 }) := by
  simp [callFindPathByLong, stRun, h]

theorem callFindLongByPath_ok (p : String) (w : W) (h : w.failAt w.callIdx = none) :
    callFindLongByPath p w =
      (.ok (MongoService.find_long_url_by_short_url_path w.col p),
        { w with callIdx := w.callIdx + 1 }) := by
  simp [callFindLongByPath, stRun, h]

theorem callFindLongByPath_fail (p : String) (w : W) (e : Exc)
    (h : w.failAt w.callIdx = some e) :
    callFindLongByPath p w = (.error e, { w with callIdx := w.callIdx + 1 }) := by
  simp [callFindLongByPath, stRun, h]

theorem callIsExist_ok (p : String) (w : W) (h : w.failAt w.callIdx = none) :
    callIsExist p w =
      (.ok (MongoService.is_short_url_path_exist w.col p),
        { w with callIdx := w.callIdx + 1 }) := by
  simp [callIsExist, stRun, h]

theorem callInsert_okk (p u : String) (w : W) (col' : List Mapping)
    (h : w.failAt w.callIdx = none)
    (hins : MongoService.insert_url_mapping w.col p u = .ok col') :
    callInsert p u w = (.ok (), { w with col := col', callIdx := w.callIdx + 1 }) := by
  simp [callInsert, stRun, h, hins]

theorem callInsert_err (p u : String) (w : W) (e : Exc)
    (h : w.failAt w.callIdx = none)
    (hins : MongoService.insert_url_mapping w.col p u = .error e) :
    callInsert p u w = (.error e, { w with callIdx := w.callIdx + 1 }) := by
  simp [callInsert, stRun, h, hins]

theorem callInsert_fail (p u : String) (w : W) (e : Exc)
    (h : w.failAt w.callIdx = some e) :
    callInsert p u w = (.error e, { w with callIdx := w.callIdx + 1 }) := by
  simp [callInsert, stRun, h]

theorem callIncrement_ok (p : String) (w : W) (h : w.failAt w.callIdx = none) :
    callIncrement p w = (.ok (),
      { w with col := MongoService.increment_short_url_path_counter w.col p,
               callIdx := w.callIdx + 1 }) := by
  simp [callIncrement, stRun, h]

theorem callIncrement_fail (p : String) (w : W) (e : Exc)
    (h : w.failAt w.callIdx = some e) :
    callIncrement p w = (.error e, { w with callIdx := w.callIdx + 1 }) := by
  simp [callIncrement, stRun, h]

theorem callFindVisits_ok (p : String) (w : W) (h : w.failAt w.callIdx = none) :
    callFindVisits p w =
      (.ok (MongoService.find_short_url_path_visits w.col p),
        { w with callIdx := w.callIdx + 1 }) := by
  simp [callFindVisits, stRun, h]

theorem callFindVisits_fail (p : String) (w : W) (e : Exc)
    (h : w.failAt w.callIdx = some e) :
    callFindVisits p w = (.error e, { w with callIdx := w.callIdx + 1 }) := by
  simp [callFindVisits, stRun, h]

theorem gen_path_ne_empty (w : W) :
    (URLShortenerApp.generate_short_url_path w).1 ≠ "" := by
  intro h
  have hd := congrArg String.data h
  simp [URLShortenerApp.generate_short_url_path, URLShortenerApp.linkLength] at hd

theorem visitsOf_cons (m : Mapping) (rest : List Mapping) (p : String) :
    visitsOf (m :: rest) p =
      if m.short_url_path = p then some m.visits else visitsOf rest p := by
  by_cases h : m.short_url_path = p <;> simp [visitsOf, h]

theorem visitsOf_append_left (col l : List Mapping) (p : String) (v : Nat)
    (h : visitsOf col p = some v) : visitsOf (col ++ l) p = some v := by
  unfold visitsOf at h ⊢
  rcases hf : col.find? (fun m => m.short_url_path == p) with _ | m
  · rw [hf] at h
    simp at h
  · rw [hf] at h
    rw [List.find?_append, hf]
    simpa using h

theorem visitsOf_insert_new (col : List Mapping) (p u : String)
    (h : col.find? (fun m => m.short_url_path == p) = none) :
    visitsOf (col ++ [⟨p, u, 0⟩]) p = some 0 := by
  unfold visitsOf
  rw [List.find?_append, h]
  simp

theorem visitsOf_increment (col : List Mapping) (p q : String) :
    visitsOf (MongoService.increment_short_url_path_counter col q) p =
      if p = q then (visitsOf col p).map (fun v => v + 1) else visitsOf col p := by
  induction col with
  | nil =>
    by_cases hpq : p = q <;>
      simp [MongoService.increment_short_url_path_counter, visitsOf, hpq]
  | cons m rest ih =>
    by_cases hmq : m.short_url_path = q
    · by_cases hpq : p = q
      · subst hpq
        simp [MongoService.increment_short_url_path_counter, hmq, visitsOf_cons]
      · have hqp : ¬ q = p := fun hh => hpq hh.symm
        have hmp : ¬ m.short_url_path = p := by
          rw [hmq]
          exact hqp
        simp [MongoService.increment_short_url_path_counter, hmq, visitsOf_cons, hmp, hpq,
          hqp]
    · have hne : ¬ (m.short_url_path == q) = true := by simpa using hmq
      simp only [MongoService.increment_short_url_path_counter, if_neg hne]
      simp only [visitsOf_cons, ih]
      by_cases hmp : m.short_url_path = p
      · have hpq : ¬ p = q := fun hh => hmq (by rw [hmp, hh])
        simp [hmp, hpq]
      · simp [hmp]

theorem monoList_refl (c : List Mapping) : MonoList c c :=
  fun _p v h => ⟨v, h, le_refl v⟩

theorem monoList_trans {a b c : List Mapping} (h1 : MonoList a b) (h2 : MonoList b c) :
    MonoList a c := by
  intro p v h
  obtain ⟨v1, hv1, hle1⟩ := h1 p v h
  obtain ⟨v2, hv2, hle2⟩ := h2 p v1 hv1
  exact ⟨v2, hv2, le_trans hle1 hle2⟩

theorem monoList_append (col l : List Mapping) : MonoList col (col ++ l) :=
  fun p v h => ⟨v, visitsOf_append_left col l p v h, le_refl v⟩

theorem monoList_increment (col : List Mapping) (q : String) :
    MonoList col (MongoService.increment_short_url_path_counter col q) := by
  intro p v h
  rw [visitsOf_increment]
  by_cases hpq : p = q
  · rw [if_pos hpq, h]
    exact ⟨v + 1, rfl, Nat.le_succ v⟩
  · rw [if_neg hpq]
    exact ⟨v, h, le_refl v⟩

/-- Every terminating run of the backoff loop relates initial and final state
by `P` whenever every attempt of the wrapped operation does. -/
theorem backoffLoop_preserves {σ α : Type} (P : σ → σ → Prop)
    (hrefl : ∀ s, P s s) (htrans : ∀ {a b c}, P a b → P b c → P a c)
    (func : σ → Option (Except Exc α × σ)) (factor border : Nat)
    (hstep : ∀ s r s', func s = some (r, s') → P s s') :
    ∀ (fuel cur att : Nat) (slept : List Nat) (s : σ) (out : BOut α) (s' : σ),
      backoffLoop func factor border fuel cur att slept s = some (out, s') → P s s' := by
  intro fuel
  induction fuel with
  | zero =>
    intro cur att slept s out s' h
    simp [backoffLoop] at h
  | succ n ih =>
    intro cur att slept s out s' h
    rw [backoffLoop_succ] at h
    by_cases hc : cur < border
    · rw [if_pos hc] at h
      rcases hfs : func s with _ | ⟨r, s1⟩ <;> rw [hfs] at h
      · simp at h
      · have hP1 : P s s1 := hstep s r s1 hfs
        cases r with
        | ok a =>
          simp at h
          rw [← h.2]
          exact hP1
        | error e =>
          cases e with
          | jsonDecodeError =>
            simp at h
            rw [← h.2]
            exact hP1
          | validationError errs =>
            simp at h
            rw [← h.2]
            exact hP1
          | duplicateKey =>
            simp only [] at h
            exact htrans hP1 (ih (cur * factor) (att + 1) (slept ++ [cur]) s1 out s' h)
          | transient msg =>
            simp only [] at h
            exact htrans hP1 (ih (cur * factor) (att + 1) (slept ++ [cur]) s1 out s' h)
    · rw [if_neg hc] at h
      simp at h
      rw [← h.2]
      exact hrefl s

/-- C6: a wrapped operation that always raises an unclassified failure is
retried a bounded number of times under the default parameters
(`start_sleep_time=0.1`, `factor=2`, `border_sleep_time=10`): the loop
terminates after exactly 7 executions of the operation, the slept delays are
0.1, 0.2, 0.4, 0.8, 1.6, 3.2, 6.4 seconds ([1, 2, 4, 8, 16, 32, 64] in the
tenths-of-a-second units of the model), the loop stops once the delay reaches
12.8 ≥ 10, and the invocation returns the generic 500
"An internal server error occurred." response — it never loops forever. -/
theorem c6_backoff_terminates {σ α : Type} (func : σ → Option (Except Exc α × σ))
    (step : σ → σ) (s : σ)
    (hf : ∀ s0, ∃ e, e.isUnclassified = true ∧ func s0 = some (.error e, step s0)) :
    backoffLoop func backoffFactor borderSleepTime bFuelDefault startSleepTime 0 [] s =
      some (⟨.inr internalServerErrorResponse, [1, 2, 4, 8, 16, 32, 64], 7, 128⟩,
        step (step (step (step (step (step (step s))))))) :=
  backoffLoop_exhaust func step (fun _ => True) (fun _ _ => trivial)
    (fun s0 _ => hf s0) 8 s trivial

/-- Witness for C6 at a concrete always-failing operation. -/
theorem c6_backoff_terminates_witness :
    backoffLoop (fun (s : Unit) =>
        (some (.error (Exc.transient "down"), s) : Option (Except Exc Nat × Unit)))
      backoffFactor borderSleepTime bFuelDefault startSleepTime 0 [] () =
      some (⟨.inr internalServerErrorResponse, [1, 2, 4, 8, 16, 32, 64], 7, 128⟩, ()) :=
  c6_backoff_terminates (fun (s : Unit) =>
      (some (.error (Exc.transient "down"), s) : Option (Except Exc Nat × Unit)))
    (fun s => s) () (fun _ => ⟨.transient "down", rfl, rfl⟩)

/-- C4: the backoff wrapper's `current_sleep_time` is a closure variable of
the wrapped-operation definition (threaded through `runOp` as the `Delays`
state), not reset per call.  First conjunct: an invocation that starts at or
above the ceiling returns the generic 500 response at once, with the wrapped
operation executed zero times and the state untouched.  Second conjunct: an
invocation can only grow the delay — the final delay is the starting delay
times `factor` per retried failure — so failed attempts in one invocation
raise the starting delay of every later invocation.  Third conjunct: the
deployed generate endpoint threads exactly this final delay into the stored
delay state that seeds its next invocation. -/
theorem c4_delay_state_shared :
    (∀ (σ α : Type) (func : σ → Option (Except Exc α × σ)) (fuel cur att : Nat)
        (slept : List Nat) (s : σ), borderSleepTime ≤ cur →
        backoffLoop func backoffFactor borderSleepTime (fuel + 1) cur att slept s =
          some (⟨.inr internalServerErrorResponse, slept, att, cur⟩, s)) ∧
    (∀ (σ α : Type) (func : σ → Option (Except Exc α × σ)) (fuel cur : Nat) (s : σ)
        (out : BOut α) (s' : σ),
        backoffLoop func backoffFactor borderSleepTime fuel cur 0 [] s = some (out, s') →
        cur ≤ out.delay ∧ out.delay = cur * backoffFactor ^ out.slept.length) ∧
    (∀ (protocol domain : String) (req : Option Json) (sys : Sys),
        sys.delays.generateDelay ≤
          (runOp protocol domain (.generateOp req) sys).delays.generateDelay) := by
  refine ⟨?_, ?_, ?_⟩
  · intro σ α func fuel cur att slept s h
    exact backoffLoop_stop func backoffFactor borderSleepTime fuel cur att slept s
      (Nat.not_lt.mpr h)
  · intro σ α func fuel cur s out s' h
    obtain ⟨h1, _, h3⟩ :=
      backoffLoop_delay_mono func backoffFactor borderSleepTime (by decide)
        fuel cur 0 [] s out s' h
    refine ⟨h1, ?_⟩
    simpa using h3
  · intro protocol domain req sys
    dsimp only [runOp]
    rcases hgen : URLShortenerApp.generate_short_url protocol domain glFuelDefault
        bFuelDefault req sys.w sys.delays.generateDelay with _ | ⟨out, w'⟩
    · simp
    · have hgen' := hgen
      unfold URLShortenerApp.generate_short_url at hgen'
      obtain ⟨h1, _, _⟩ :=
        backoffLoop_delay_mono _ backoffFactor borderSleepTime (by decide)
          bFuelDefault sys.delays.generateDelay 0 [] sys.w out w' hgen'
      simpa using h1

/-- Witness for C4 at concrete inputs: an invocation starting at the ceiling
(delay 10) returns 500 without running the operation, and the deployed
generate endpoint never lowers its stored delay. -/
theorem c4_delay_state_shared_witness :
    backoffLoop (fun (s : Unit) => some (.ok 7, s)) backoffFactor borderSleepTime
      (0 + 1) 100 0 [] () =
      some (⟨.inr internalServerErrorResponse, [], 0, 100⟩, ()) ∧
    (⟨⟨[], fun _ => 0, 0, fun _ => none, 0, 1⟩, Delays.fresh⟩ : Sys).delays.generateDelay ≤
      (runOp "https" "svc.test" (.generateOp (genReq "https://example.com/a"))
        ⟨⟨[], fun _ => 0, 0, fun _ => none, 0, 1⟩, Delays.fresh⟩).delays.generateDelay :=
  ⟨c4_delay_state_shared.1 Unit Nat (fun s => some (.ok 7, s)) 0 100 0 [] ()
      (by decide),
   c4_delay_state_shared.2.2 "https" "svc.test" (genReq "https://example.com/a")
      ⟨⟨[], fun _ => 0, 0, fun _ => none, 0, 1⟩, Delays.fresh⟩⟩

/-- C5 (counterexample): `GetVisitCount` on a short path that was never
generated does NOT return a `NotFound`-class result — the deployed endpoint
returns status 200 with body `{"visits": null}` (the `None` looked up for the
unknown path is serialized straight into the JSON response). -/
theorem c5_counterexample :
    URLShortenerApp.get_short_url_visits bFuelDefault "abc12"
      ⟨[], fun _ => 0, 0, fun _ => none, 0, 1⟩ startSleepTime =
      some (⟨.inl (.resp ⟨200, .json (.obj [("visits", .null)])⟩), [], 1, 1⟩,
        ⟨[], fun _ => 0, 0, fun _ => none, 1, 1⟩) := rfl

/-- C5 (amended): `GetVisitCount` on a non-empty short path never crashes:
it returns a 200 JSON response whose `visits` field is the stored counter
when the path is known and JSON `null` (not a `NotFound`-class result) when
the path was never generated. -/
theorem c5_visit_count_lookup (w : W) (p : String) (d bf : Nat)
    (hp : p ≠ "") (hnf : w.failAt w.callIdx = none) (hd : d < borderSleepTime) :
    URLShortenerApp.get_short_url_visits (bf + 1) p w d =
      some (⟨.inl (.resp ⟨200, .json (.obj [("visits",
          valToJson (MongoService.find_short_url_path_visits w.col p))])⟩), [], 1, d⟩,
        { w with callIdx := w.callIdx + 1 }) ∧
    (∀ v, visitsOf w.col p = some v →
      valToJson (MongoService.find_short_url_path_visits w.col p) = .num v) ∧
    (visitsOf w.col p = none →
      valToJson (MongoService.find_short_url_path_visits w.col p) = .null) := by
  refine ⟨?_, ?_, ?_⟩
  · have hbody : URLShortenerApp.get_short_url_visits_body p w =
        some (.ok (.resp ⟨200, .json (.obj [("visits",
          valToJson (MongoService.find_short_url_path_visits w.col p))])⟩),
          { w with callIdx := w.callIdx + 1 }) := by
      unfold URLShortenerApp.get_short_url_visits_body
      rw [if_neg hp, callFindVisits_ok p w hnf]
    unfold URLShortenerApp.get_short_url_visits
    exact backoffLoop_ok _ backoffFactor borderSleepTime bf d 0 [] w _ _ hd hbody
  · intro v hv
    unfold visitsOf at hv
    rw [find_visits_eq]
    rcases hf : w.col.find? (fun m => m.short_url_path == p) with _ | m <;> rw [hf] at hv
    · simp at hv
    · simp at hv
      rw [hf]
      simp [valToJson, hv]
  · intro hv
    unfold visitsOf at hv
    rw [find_visits_eq]
    rcases hf : w.col.find? (fun m => m.short_url_path == p) with _ | m <;> rw [hf] at hv
    · rw [hf]
      simp [valToJson]
    · simp at hv

/-- Witness for C5 (amended) at a concrete stored mapping. -/
theorem c5_visit_count_lookup_witness :
    URLShortenerApp.get_short_url_visits (15 + 1) "abc12"
      ⟨[⟨"abc12", "https://example.com/a", 3⟩], fun _ => 0, 0, fun _ => none, 0, 1⟩ 1 =
      some (⟨.inl (.resp ⟨200, .json (.obj [("visits",
          valToJson (MongoService.find_short_url_path_visits
            [⟨"abc12", "https://example.com/a", 3⟩] "abc12"))])⟩), [], 1, 1⟩,
        ⟨[⟨"abc12", "https://example.com/a", 3⟩], fun _ => 0, 0, fun _ => none, 1, 1⟩) ∧
    valToJson (MongoService.find_short_url_path_visits
      [⟨"abc12", "https://example.com/a", 3⟩] "abc12") = .num 3 := by
  have h := c5_visit_count_lookup
    ⟨[⟨"abc12", "https://example.com/a", 3⟩], fun _ => 0, 0, fun _ => none, 0, 1⟩
    "abc12" 1 15 (by decide) rfl (by decide)
  exact ⟨h.1, h.2.1 3 rfl⟩

/-- C9: `GenerateShortURL` called with an invalid `long_url` — the empty
string or any string that is not a syntactically valid URL — returns the
400 response carrying the validation errors, and the world (in particular
the stored collection) is completely untouched: the long URL never reaches
storage. -/
theorem c9_validation_rejected (protocol domain : String) (glF bf d : Nat) (w : W)
    (u : String) (hu : isValidUrl u = false) (hd : d < borderSleepTime) :
    URLShortenerApp.generate_short_url protocol domain glF (bf + 1) (genReq u) w d =
      some (⟨.inr (validationErrorsResponse
          [("long_url", "invalid or missing URL scheme")]), [], 1, d⟩, w) := by
  have hbody : URLShortenerApp.generate_short_url_body protocol domain glF (bf + 1)
      (genReq u) w =
      some (.error (.validationError [("long_url", "invalid or missing URL scheme")]), w) := by
    unfold URLShortenerApp.generate_short_url_body genReq
    simp [validationErrors, lookupField, hu]
  unfold URLShortenerApp.generate_short_url
  exact backoffLoop_validation _ backoffFactor borderSleepTime bf d 0 [] w _ _ hd hbody

/-- Witness for C9 at the empty string. -/
theorem c9_validation_rejected_witness :
    URLShortenerApp.generate_short_url "https" "svc.test" glFuelDefault (15 + 1)
      (genReq "") ⟨[], fun _ => 0, 0, fun _ => none, 0, 1⟩ 1 =
      some (⟨.inr (validationErrorsResponse
          [("long_url", "invalid or missing URL scheme")]), [], 1, 1⟩,
        ⟨[], fun _ => 0, 0, fun _ => none, 0, 1⟩) :=
  c9_validation_rejected "https" "svc.test" glFuelDefault 15 1
    ⟨[], fun _ => 0, 0, fun _ => none, 0, 1⟩ "" (by decide) (by decide)

theorem isValidUrl_ne_empty (s : String) (h : isValidUrl s = true) : s ≠ "" := by
  intro hh
  subst hh
  exact absurd h (by decide)

theorem validation_none_field (fields : List (String × Json))
    (h : validationErrors fields = none) :
    ∃ s, lookupField fields "long_url" = some (.str s) ∧ isValidUrl s = true := by
  unfold validationErrors at h
  rcases hlf : lookupField fields "long_url" with _ | j <;> rw [hlf] at h
  · simp at h
  · cases j with
    | str s =>
      refine ⟨s, rfl, ?_⟩
      simp only [] at h
      by_cases hv : isValidUrl s = true
      · exact hv
      · rw [if_neg hv] at h
        simp at h
    | null => simp at h
    | bool b => simp at h
    | num n => simp at h
    | arr xs => simp at h
    | obj fs => simp at h

theorem generate_and_insert_not_param_resp (protocol domain : String)
    (glF bf : Nat) (u : String) (w : W) (r : Except Exc HandlerResult) (w' : W)
    (h : URLShortenerApp.generate_and_insert protocol domain glF bf u w = some (r, w')) :
    r ≠ .ok (.resp ⟨400, .text "long_url parameter was not specified"⟩) := by
  unfold URLShortenerApp.generate_and_insert at h
  rcases hg : URLShortenerApp.generate_unique_short_url_path glF bf w with _ | ⟨out, w2⟩ <;>
    rw [hg] at h
  · simp at h
  · simp only [] at h
    rcases hres : out.result with p | resp <;> rw [hres] at h
    · simp only [] at h
      rcases hins : callInsert p u w2 with ⟨ir, w3⟩
      rw [hins] at h
      rcases ir with e | a
      · simp at h
        rw [← h.1]
        simp
      · simp at h
        rw [← h.1]
        simp
    · simp at h
      rw [← h.1]
      simp

/-- C10: the 400 branch "long_url parameter was not specified" in
`generate_short_url` is unreachable: no request body can make the handler
body return that response, because every body either raises before the check
(malformed JSON, non-mapping body, or a pydantic validation failure) or has a
validated `long_url` field that is a non-empty string, making the subsequent
truthiness check pass. -/
theorem c10_param_branch_unreachable (protocol domain : String) (glF bf : Nat)
    (req : Option Json) (w : W) :
    (∀ r w', URLShortenerApp.generate_short_url_body protocol domain glF bf req w =
        some (r, w') →
      r ≠ .ok (.resp ⟨400, .text "long_url parameter was not specified"⟩)) ∧
    (∀ fields, req = some (.obj fields) → validationErrors fields = none →
      jsonFieldString (.obj fields) "long_url" ≠ "") := by
  constructor
  · intro r w' h
    unfold URLShortenerApp.generate_short_url_body at h
    rcases req with _ | data
    · simp at h
      rw [← h.1]
      simp
    · cases data with
      | obj fields =>
        simp only [] at h
        rcases hv : validationErrors fields with _ | errs <;> rw [hv] at h <;>
          simp only [] at h
        · obtain ⟨s, hlf, hval⟩ := validation_none_field fields hv
          have hfs : jsonFieldString (.obj fields) "long_url" = s := by
            simp [jsonFieldString, hlf]
          rw [hfs, if_neg (isValidUrl_ne_empty s hval)] at h
          rcases hc : callFindPathByLong s w with ⟨cr, w1⟩
          rw [hc] at h
          rcases cr with e | rv
          · simp at h
            rw [← h.1]
            simp
          · simp only [] at h
            rcases rv with _ | v
            · exact generate_and_insert_not_param_resp protocol domain glF bf s w1 r w' h
            · rcases v with p | k
              · simp only [] at h
                by_cases hpe : p = ""
                · rw [if_pos hpe] at h
                  exact generate_and_insert_not_param_resp protocol domain glF bf s w1 r w' h
                · rw [if_neg hpe] at h
                  simp at h
                  rw [← h.1]
                  simp
              · exact generate_and_insert_not_param_resp protocol domain glF bf s w1 r w' h
        · simp at h
          rw [← h.1]
          simp
      | null => simp at h; rw [← h.1]; simp
      | bool b => simp at h; rw [← h.1]; simp
      | num n => simp at h; rw [← h.1]; simp
      | str s => simp at h; rw [← h.1]; simp
      | arr xs => simp at h; rw [← h.1]; simp
  · intro fields hreq hval
    obtain ⟨s, hlf, hv⟩ := validation_none_field fields hval
    have hfs : jsonFieldString (.obj fields) "long_url" = s := by
      simp [jsonFieldString, hlf]
    rw [hfs]
    exact isValidUrl_ne_empty s hv

/-- Witness for C10 at a concrete request body and world. -/
theorem c10_param_branch_unreachable_witness :
    (Except.ok (.resp ⟨200, .json (.obj
        [("short_url", .str "https://svc.test/aaaaa")])⟩) : Except Exc HandlerResult) ≠
      .ok (.resp ⟨400, .text "long_url parameter was not specified"⟩) ∧
    jsonFieldString (.obj [("long_url", .str "https://example.com/a")]) "long_url" ≠ "" :=
  ⟨(c10_param_branch_unreachable "https" "svc.test" glFuelDefault bFuelDefault
      (genReq "https://example.com/a") ⟨[], fun _ => 0, 0, fun _ => none, 0, 1⟩).1
      (.ok (.resp ⟨200, .json (.obj [("short_url", .str "https://svc.test/aaaaa")])⟩))
      ⟨[⟨"aaaaa", "https://example.com/a", 0⟩], fun _ => 0, 5, fun _ => none, 3, 1⟩ rfl,
   (c10_param_branch_unreachable "https" "svc.test" glFuelDefault bFuelDefault
      (genReq "https://example.com/a") ⟨[], fun _ => 0, 0, fun _ => none, 0, 1⟩).2
      [("long_url", .str "https://example.com/a")] rfl rfl⟩

/-- C2 (counterexample): a failing visit-counter increment DOES block the
redirect.  With the mapping `abc12 → https://example.com/a` stored and the
increment storage call raising a transient exception (the find succeeds, the
increment raises), `redirect_to_original_url` propagates the raw exception —
no redirect instruction is produced — because `redirect_to_original_url` is
not decorated with `@backoff()` and nothing guards the increment. -/
theorem c2_counterexample :
    URLShortenerApp.redirect_to_original_url "abc12"
      ⟨[⟨"abc12", "https://example.com/a", 0⟩], fun _ => 0, 0,
        fun n => if n = 1 then some (.transient "db down") else none, 0, 1⟩ =
      (.error (.transient "db down"),
       ⟨[⟨"abc12", "https://example.com/a", 0⟩], fun _ => 0, 0,
        fun n => if n = 1 then some (.transient "db down") else none, 2, 1⟩) := rfl

/-- C2 (amended): for every stored short path the increment happens before
the redirect is issued — on success the handler returns the redirect
instruction together with the already-incremented collection — but a failure
of the increment is not tolerated: if the increment raises, the exception
propagates out of the handler and no redirect is issued. -/
theorem c2_increment_before_redirect (w : W) (p lu : String)
    (hp : p ≠ "") (hfind0 : w.failAt w.callIdx = none)
    (hlu : MongoService.find_long_url_by_short_url_path w.col p = some (.s lu))
    (hlune : lu ≠ "") :
    (w.failAt (w.callIdx + 1) = none →
      URLShortenerApp.redirect_to_original_url p w =
        (.ok (.redirect lu),
         { w with col := MongoService.increment_short_url_path_counter w.col p,
                  callIdx := w.callIdx + 2 })) ∧
    (∀ e, w.failAt (w.callIdx + 1) = some e →
      URLShortenerApp.redirect_to_original_url p w =
        (.error e, { w with callIdx := w.callIdx + 2 })) := by
  constructor
  · intro hinc
    unfold URLShortenerApp.redirect_to_original_url
    rw [if_neg hp, callFindLongByPath_ok p w hfind0, hlu]
    simp only []
    rw [if_neg hlune,
      callIncrement_ok p { w with callIdx := w.callIdx + 1 } (by simpa using hinc)]
  · intro e hinc
    unfold URLShortenerApp.redirect_to_original_url
    rw [if_neg hp, callFindLongByPath_ok p w hfind0, hlu]
    simp only []
    rw [if_neg hlune,
      callIncrement_fail p { w with callIdx := w.callIdx + 1 } e (by simpa using hinc)]

/-- Witness for C2 (amended) at a concrete stored mapping with an increment
that succeeds and one that raises. -/
theorem c2_increment_before_redirect_witness :
    (URLShortenerApp.redirect_to_original_url "abc12"
        ⟨[⟨"abc12", "https://example.com/a", 0⟩], fun _ => 0, 0, fun _ => none, 0, 1⟩ =
      (.ok (.redirect "https://example.com/a"),
       ⟨[⟨"abc12", "https://example.com/a", 1⟩], fun _ => 0, 0, fun _ => none, 2, 1⟩)) ∧
    (URLShortenerApp.redirect_to_original_url "abc12"
        ⟨[⟨"abc12", "https://example.com/a", 0⟩], fun _ => 0, 0,
          fun n => if n = 1 then some (.transient "boom") else none, 0, 1⟩ =
      (.error (.transient "boom"),
       ⟨[⟨"abc12", "https://example.com/a", 0⟩], fun _ => 0, 0,
          fun n => if n = 1 then some (.transient "boom") else none, 2, 1⟩)) :=
  ⟨(c2_increment_before_redirect
      ⟨[⟨"abc12", "https://example.com/a", 0⟩], fun _ => 0, 0, fun _ => none, 0, 1⟩
      "abc12" "https://example.com/a" (by decide) rfl rfl (by decide)).1 rfl,
   (c2_increment_before_redirect
      ⟨[⟨"abc12", "https://example.com/a", 0⟩], fun _ => 0, 0,
        fun n => if n = 1 then some (.transient "boom") else none, 0, 1⟩
      "abc12" "https://example.com/a" (by decide) rfl rfl (by decide)).2
      (.transient "boom") rfl⟩

theorem gen_body_transient (protocol domain : String) (glF bf : Nat) (u m : String)
    (w0 : W) (hu : isValidUrl u = true)
    (hw0 : w0.failAt w0.callIdx = some (.transient m)) :
    URLShortenerApp.generate_short_url_body protocol domain glF bf (genReq u) w0 =
      some (.error (.transient m), { w0 with callIdx := w0.callIdx + 1 }) := by
  have hne : ¬ u = "" := isValidUrl_ne_empty u hu
  simp [URLShortenerApp.generate_short_url_body, genReq, validationErrors, lookupField,
    hu, jsonFieldString, hne, callFindPathByLong_fail u w0 _ hw0]

theorem get_long_body_transient (p m : String) (w0 : W) (hp : p ≠ "")
    (hw0 : w0.failAt w0.callIdx = some (.transient m)) :
    URLShortenerApp.get_long_url_body p w0 =
      some (.error (.transient m), { w0 with callIdx := w0.callIdx + 1 }) := by
  simp [URLShortenerApp.get_long_url_body, hp, callFindLongByPath_fail p w0 _ hw0]

theorem visits_body_transient (p m : String) (w0 : W) (hp : p ≠ "")
    (hw0 : w0.failAt w0.callIdx = some (.transient m)) :
    URLShortenerApp.get_short_url_visits_body p w0 =
      some (.error (.transient m), { w0 with callIdx := w0.callIdx + 1 }) := by
  simp [URLShortenerApp.get_short_url_visits_body, hp, callFindVisits_fail p w0 _ hw0]

/-- C3 (counterexample): the retry/backoff wrapper does NOT govern all four
endpoints.  `redirect_to_original_url` is not decorated with `@backoff()`:
with storage raising a transient exception on every call, the redirect
endpoint performs a single storage call and propagates the raw exception to
the HTTP boundary instead of retrying and returning a generic 500. -/
theorem c3_counterexample :
    URLShortenerApp.redirect_to_original_url "abc12"
      ⟨[], fun _ => 0, 0, fun _ => some (.transient "connection reset"), 0, 1⟩ =
      (.error (.transient "connection reset"),
       ⟨[], fun _ => 0, 0, fun _ => some (.transient "connection reset"), 1, 1⟩) := rfl

/-- C3 (amended): the backoff wrapper governs `GenerateShortURL`,
`GetLongURL` and `GetVisitCount` — under persistently failing storage each of
those endpoints retries with the exponential delay sequence 0.1 ... 6.4s
([1, ..., 64] in tenths) and then surfaces the generic 500 — while
`ResolveAndRedirect` is NOT wrapped: its unclassified failure propagates as
the raw exception after a single storage call. -/
theorem c3_backoff_wrapped_endpoints (protocol domain : String) (glF : Nat)
    (u p m : String) (w : W)
    (hw : ∀ n, w.failAt n = some (.transient m))
    (hu : isValidUrl u = true) (hp : p ≠ "") :
    (URLShortenerApp.generate_short_url protocol domain glF bFuelDefault (genReq u) w
        startSleepTime).map (fun x => x.1) =
      some ⟨.inr internalServerErrorResponse, [1, 2, 4, 8, 16, 32, 64], 7, 128⟩ ∧
    (URLShortenerApp.get_long_url bFuelDefault p w startSleepTime).map (fun x => x.1) =
      some ⟨.inr internalServerErrorResponse, [1, 2, 4, 8, 16, 32, 64], 7, 128⟩ ∧
    (URLShortenerApp.get_short_url_visits bFuelDefault p w startSleepTime).map
        (fun x => x.1) =
      some ⟨.inr internalServerErrorResponse, [1, 2, 4, 8, 16, 32, 64], 7, 128⟩ ∧
    (URLShortenerApp.redirect_to_original_url p w).1 = .error (.transient m) := by
  have hInv : ∀ w0 : W, (∀ n, w0.failAt n = some (.transient m)) →
      ∀ n, ({ w0 with callIdx := w0.callIdx + 1 } : W).failAt n = some (.transient m) :=
    fun w0 h n => h n
  refine ⟨?_, ?_, ?_, ?_⟩
  · unfold URLShortenerApp.generate_short_url
    have hx := backoffLoop_exhaust
      (URLShortenerApp.generate_short_url_body protocol domain glF bFuelDefault (genReq u))
      (fun w0 => { w0 with callIdx := w0.callIdx + 1 })
      (fun w0 => ∀ n, w0.failAt n = some (.transient m)) hInv
      (fun w0 h0 => ⟨.transient m, rfl,
        gen_body_transient protocol domain glF bFuelDefault u m w0 hu (h0 w0.callIdx)⟩)
      8 w hw
    have hx2 := congrArg (Option.map (fun x : BOut HandlerResult × W => x.1)) hx
    simp only [Option.map_some'] at hx2
    exact hx2
  · unfold URLShortenerApp.get_long_url
    have hx := backoffLoop_exhaust
      (URLShortenerApp.get_long_url_body p)
      (fun w0 => { w0 with callIdx := w0.callIdx + 1 })
      (fun w0 => ∀ n, w0.failAt n = some (.transient m)) hInv
      (fun w0 h0 => ⟨.transient m, rfl,
        get_long_body_transient p m w0 hp (h0 w0.callIdx)⟩)
      8 w hw
    have hx2 := congrArg (Option.map (fun x : BOut HandlerResult × W => x.1)) hx
    simp only [Option.map_some'] at hx2
    exact hx2
  · unfold URLShortenerApp.get_short_url_visits
    have hx := backoffLoop_exhaust
      (URLShortenerApp.get_short_url_visits_body p)
      (fun w0 => { w0 with callIdx := w0.callIdx + 1 })
      (fun w0 => ∀ n, w0.failAt n = some (.transient m)) hInv
      (fun w0 h0 => ⟨.transient m, rfl,
        visits_body_transient p m w0 hp (h0 w0.callIdx)⟩)
      8 w hw
    have hx2 := congrArg (Option.map (fun x : BOut HandlerResult × W => x.1)) hx
    simp only [Option.map_some'] at hx2
    exact hx2
  · unfold URLShortenerApp.redirect_to_original_url
    rw [if_neg hp, callFindLongByPath_fail p w _ (hw w.callIdx)]

/-- Witness for C3 (amended) at a concrete always-failing world. -/
theorem c3_backoff_wrapped_endpoints_witness :
    (URLShortenerApp.generate_short_url "https" "svc.test" glFuelDefault bFuelDefault
        (genReq "https://example.com/a")
        ⟨[], fun _ => 0, 0, fun _ => some (.transient "down"), 0, 1⟩
        startSleepTime).map (fun x => x.1) =
      some ⟨.inr internalServerErrorResponse, [1, 2, 4, 8, 16, 32, 64], 7, 128⟩ ∧
    (URLShortenerApp.get_long_url bFuelDefault "abc12"
        ⟨[], fun _ => 0, 0, fun _ => some (.transient "down"), 0, 1⟩
        startSleepTime).map (fun x => x.1) =
      some ⟨.inr internalServerErrorResponse, [1, 2, 4, 8, 16, 32, 64], 7, 128⟩ ∧
    (URLShortenerApp.get_short_url_visits bFuelDefault "abc12"
        ⟨[], fun _ => 0, 0, fun _ => some (.transient "down"), 0, 1⟩
        startSleepTime).map (fun x => x.1) =
      some ⟨.inr internalServerErrorResponse, [1, 2, 4, 8, 16, 32, 64], 7, 128⟩ ∧
    (URLShortenerApp.redirect_to_original_url "abc12"
        ⟨[], fun _ => 0, 0, fun _ => some (.transient "down"), 0, 1⟩).1 =
      .error (.transient "down") :=
  c3_backoff_wrapped_endpoints "https" "svc.test" glFuelDefault
    "https://example.com/a" "abc12" "down"
    ⟨[], fun _ => 0, 0, fun _ => some (.transient "down"), 0, 1⟩
    (fun _ => rfl) (by decide) (by decide)

/-- C1 (counterexample): a `DuplicateKey` CAN be surfaced to the caller as an
error response, and it is not recovered inside unique-path generation.  With
every insert raising `DuplicateKey` (the injection schedule fails exactly the
third storage call of each attempt: find-by-long-url, exists-check, insert),
the unique-path generator itself succeeds every time, the whole
`generate_short_url` operation is retried by its backoff wrapper, and after
7 attempts the caller receives the generic 500 error response — caused
solely by `DuplicateKey` conditions. -/
theorem c1_counterexample :
    (URLShortenerApp.generate_short_url "https" "svc.test" glFuelDefault bFuelDefault
      (genReq "https://example.com/a")
      ⟨[], fun _ => 0, 0, fun n => if n % 3 = 2 then some .duplicateKey else none, 0, 1⟩
      startSleepTime).map (fun x => x.1) =
      some ⟨.inr internalServerErrorResponse, [1, 2, 4, 8, 16, 32, 64], 7, 128⟩ := rfl

/-- C1 (amended): a `DuplicateKey` raised while inserting a freshly chosen
short path is not caught inside `_generate_unique_short_url_path`; it
propagates out of the `generate_short_url` body to the endpoint's backoff
wrapper, which treats it like any unclassified exception — sleep, double the
delay, and retry the whole operation (first conjunct), so the retry draws a
new random path.  Second conjunct, a concrete run: the first attempt draws
"abcde" and its insert raises `DuplicateKey`; after one 0.1 s sleep the
second attempt draws the fresh path "fghij", inserts it, and the caller gets
the 200 response — the DuplicateKey never appears in the response, but
recovery happens in the endpoint wrapper, not inside path generation. -/
theorem c1_duplicate_key_handled_by_wrapper :
    (∀ (σ α : Type) (func : σ → Option (Except Exc α × σ)) (fuel cur att : Nat)
        (slept : List Nat) (s s' : σ), cur < borderSleepTime →
        func s = some (.error .duplicateKey, s') →
        backoffLoop func backoffFactor borderSleepTime (fuel + 1) cur att slept s =
          backoffLoop func backoffFactor borderSleepTime fuel (cur * backoffFactor)
            (att + 1) (slept ++ [cur]) s') ∧
    URLShortenerApp.generate_short_url "https" "svc.test" glFuelDefault bFuelDefault
      (genReq "https://example.com/a")
      ⟨[], fun n => n, 0, fun n => if n = 2 then some .duplicateKey else none, 0, 1⟩
      startSleepTime =
      some (⟨.inl (.resp ⟨200, .json (.obj
          [("short_url", .str "https://svc.test/fghij")])⟩), [1], 2, 2⟩,
        ⟨[⟨"fghij", "https://example.com/a", 0⟩], fun n => n, 10,
         fun n => if n = 2 then some .duplicateKey else none, 6, 1⟩) := by
  constructor
  · intro σ α func fuel cur att slept s s' hc hf
    exact backoffLoop_generic_step func backoffFactor borderSleepTime fuel cur att
      slept s s' .duplicateKey hc rfl hf
  · rfl

/-- Witness for C1 (amended), instantiating the wrapper-level conjunct at a
concrete operation failing with `DuplicateKey`. -/
theorem c1_duplicate_key_handled_by_wrapper_witness :
    backoffLoop (fun (s : Unit) =>
        (some (.error .duplicateKey, s) : Option (Except Exc Nat × Unit)))
      backoffFactor borderSleepTime (0 + 1) 1 0 [] () =
      backoffLoop (fun (s : Unit) =>
        (some (.error .duplicateKey, s) : Option (Except Exc Nat × Unit)))
      backoffFactor borderSleepTime 0 (1 * backoffFactor) (0 + 1) ([] ++ [1]) () :=
  c1_duplicate_key_handled_by_wrapper.1 Unit Nat
    (fun s => some (.error .duplicateKey, s)) 0 1 0 [] () () (by decide) rfl

theorem unique_path_loop_nofail :
    ∀ (fuel : Nat) (w : W), (∀ n, w.failAt n = none) →
      ∀ res w', URLShortenerApp.unique_path_loop fuel w = some (res, w') →
      ∃ p, res = .ok p ∧ p ≠ "" ∧
        MongoService.is_short_url_path_exist w.col p = false ∧
        w'.col = w.col ∧ w'.failAt = w.failAt ∧ w'.innerDelay = w.innerDelay := by
  intro fuel
  induction fuel with
  | zero =>
    intro w hnf res w' h
    simp [URLShortenerApp.unique_path_loop] at h
  | succ n ih =>
    intro w hnf res w' h
    unfold URLShortenerApp.unique_path_loop at h
    simp only [] at h
    rcases hgp : URLShortenerApp.generate_short_url_path w with ⟨p0, wg⟩
    rw [hgp] at h
    have hg2 := congrArg Prod.snd hgp
    have hg1 := congrArg Prod.fst hgp
    simp only [] at hg1 hg2
    have hwgfa : wg.failAt = w.failAt := by
      rw [← hg2]
      rfl
    have hwgcol : wg.col = w.col := by
      rw [← hg2]
      rfl
    have hwgin : wg.innerDelay = w.innerDelay := by
      rw [← hg2]
      rfl
    have hp0ne : p0 ≠ "" := by
      rw [← hg1]
      exact gen_path_ne_empty w
    rw [callIsExist_ok p0 wg (by rw [hwgfa]; exact hnf _)] at h
    simp only [] at h
    by_cases hex : MongoService.is_short_url_path_exist wg.col p0
    · rw [if_pos hex] at h
      obtain ⟨p, hres, hpne, hpex, hcol, hfa, hin⟩ :=
        ih { wg with callIdx := wg.callIdx + 1 }
          (by intro k; simpa [hwgfa] using hnf k) res w' h
      refine ⟨p, hres, hpne, ?_, ?_, ?_, ?_⟩
      · rw [← hwgcol]
        exact hpex
      · rw [hcol]
        exact hwgcol
      · rw [hfa]
        exact hwgfa
      · rw [hin]
        exact hwgin
    · rw [if_neg hex] at h
      simp only [Option.some.injEq, Prod.mk.injEq] at h
      obtain ⟨hres, hw'⟩ := h
      refine ⟨p0, hres.symm, hp0ne, ?_, ?_, ?_, ?_⟩
      · rw [← hwgcol]
        simpa using hex
      · rw [← hw']
        exact hwgcol
      · rw [← hw']
        exact hwgfa
      · rw [← hw']
        exact hwgin

theorem generate_unique_nofail (glF bf : Nat) (w : W)
    (hnf : ∀ n, w.failAt n = none) (hin : w.innerDelay < borderSleepTime)
    (res : BOut String) (w' : W)
    (h : URLShortenerApp.generate_unique_short_url_path glF (bf + 1) w = some (res, w')) :
    ∃ p, res.result = .inl p ∧ p ≠ "" ∧
      MongoService.is_short_url_path_exist w.col p = false ∧
      w'.col = w.col ∧ w'.failAt = w.failAt ∧ w'.innerDelay = w.innerDelay := by
  unfold URLShortenerApp.generate_unique_short_url_path at h
  rcases hul : URLShortenerApp.unique_path_loop glF w with _ | ⟨lres, w3⟩
  · rw [backoffLoop_none _ backoffFactor borderSleepTime bf w.innerDelay 0 [] w hin hul]
      at h
    simp at h
  · obtain ⟨p, hres, hpne, hpex, hcol, hfa, hinn⟩ :=
      unique_path_loop_nofail glF w hnf lres w3 hul
    subst hres
    rw [backoffLoop_ok _ backoffFactor borderSleepTime bf w.innerDelay 0 [] w w3 p
      hin hul] at h
    simp only [Option.some.injEq, Prod.mk.injEq] at h
    obtain ⟨hout, hw'⟩ := h
    refine ⟨p, ?_, hpne, hpex, ?_, ?_, ?_⟩
    · rw [← hout]
    · rw [← hw']
      exact hcol
    · rw [← hw']
      exact hfa
    · rw [← hw']

theorem gen_body_found (protocol domain : String) (glF bf : Nat) (u p : String)
    (w : W) (hu : isValidUrl u = true)
    (hfind : MongoService.find_short_url_path_by_long_url w.col u = some (.s p))
    (hpne : p ≠ "") (hnf0 : w.failAt w.callIdx = none) :
    URLShortenerApp.generate_short_url_body protocol domain glF bf (genReq u) w =
      some (.ok (.resp ⟨200, .json (.obj [("short_url",
          .str (URLShortenerApp.generate_full_url protocol domain p))])⟩),
        { w with callIdx := w.callIdx + 1 }) := by
  have hne : ¬ u = "" := isValidUrl_ne_empty u hu
  simp [URLShortenerApp.generate_short_url_body, genReq, validationErrors, lookupField,
    hu, jsonFieldString, hne, callFindPathByLong_ok u w hnf0, hfind, hpne]

theorem gen_body_notfound (protocol domain : String) (glF bf : Nat) (u : String)
    (w : W) (hu : isValidUrl u = true)
    (hfind : MongoService.find_short_url_path_by_long_url w.col u = none)
    (hnf0 : w.failAt w.callIdx = none) :
    URLShortenerApp.generate_short_url_body protocol domain glF bf (genReq u) w =
      URLShortenerApp.generate_and_insert protocol domain glF bf u
        { w with callIdx := w.callIdx + 1 } := by
  have hne : ¬ u = "" := isValidUrl_ne_empty u hu
  simp [URLShortenerApp.generate_short_url_body, genReq, validationErrors, lookupField,
    hu, jsonFieldString, hne, callFindPathByLong_ok u w hnf0, hfind]

theorem find_by_long_append_new (col : List Mapping) (u p : String)
    (h : col.find? (fun m => m.long_url == u) = none) :
    MongoService.find_short_url_path_by_long_url (col ++ [⟨p, u, 0⟩]) u =
      some (.s p) := by
  rw [find_by_long_eq, List.find?_append, h]
  simp

theorem countLong_singleton (u p : String) : countLong u [⟨p, u, 0⟩] = 1 := by
  simp [countLong]

/-- C7: GenerateShortURL is idempotent.  Under a failure-free storage (no
injected exceptions), a well-formed store (at most one mapping for the long
URL, no empty stored paths) and a valid `long_url`, if a first call to the
deployed endpoint terminates then it succeeds, a second call with the same
`long_url` succeeds with the SAME response (same short path), the second call
changes nothing in storage, and exactly one mapping record for that long URL
exists after either call. -/
theorem c7_generate_idempotent (protocol domain : String) (glF bf1 bf2 d : Nat)
    (u : String) (w : W) (hu : isValidUrl u = true)
    (hnf : ∀ n, w.failAt n = none)
    (hcount : countLong u w.col ≤ 1)
    (hempty : ∀ m ∈ w.col, m.short_url_path ≠ "")
    (hd : d < borderSleepTime) (hin : w.innerDelay < borderSleepTime)
    (out1 : BOut HandlerResult) (w1 : W)
    (h1 : URLShortenerApp.generate_short_url protocol domain glF (bf1 + 1) (genReq u)
      w d = some (out1, w1)) :
    ∃ r1 out2 w2,
      out1.result = .inl r1 ∧
      URLShortenerApp.generate_short_url protocol domain glF (bf2 + 1) (genReq u) w1
        out1.delay = some (out2, w2) ∧
      out2.result = .inl r1 ∧ w2.col = w1.col ∧
      countLong u w1.col = 1 ∧ countLong u w2.col = 1 := by
  unfold URLShortenerApp.generate_short_url at h1
  rw [backoffLoop_succ, if_pos hd] at h1
  rcases hfl : w.col.find? (fun m => m.long_url == u) with _ | m
  · -- no mapping for u yet: the path generator and the insert run
    have hfind : MongoService.find_short_url_path_by_long_url w.col u = none := by
      rw [find_by_long_eq, hfl]
      rfl
    have hcnt0 : countLong u w.col = 0 := countLong_zero_of_find_none w.col u hfl
    rw [gen_body_notfound protocol domain glF (bf1 + 1) u w hu hfind (hnf _)] at h1
    unfold URLShortenerApp.generate_and_insert at h1
    rcases hgu : URLShortenerApp.generate_unique_short_url_path glF (bf1 + 1)
        { w with callIdx := w.callIdx + 1 } with _ | ⟨gout, wg⟩
    · rw [hgu] at h1
      simp at h1
    · rw [hgu] at h1
      simp only [] at h1
      obtain ⟨p, hres, hpne, hpex, hcolg, hfag, _hing⟩ :=
        generate_unique_nofail glF bf1 { w with callIdx := w.callIdx + 1 }
          (fun n => hnf n) hin gout wg hgu
      rw [hres] at h1
      simp only [] at h1
      have hins : MongoService.insert_url_mapping wg.col p u =
          .ok (wg.col ++ [⟨p, u, 0⟩]) := by
        apply insert_ok
        · apply not_exist_any_eq_false wg.col p hpne
          rw [hcolg]
          exact hpex
        · rw [hcolg]
          exact find_by_long_none_any w.col u hfl
      rw [callInsert_okk p u wg (wg.col ++ [⟨p, u, 0⟩]) (by rw [hfag]; exact hnf _)
        hins] at h1
      simp only [] at h1
      simp only [Option.some.injEq, Prod.mk.injEq] at h1
      obtain ⟨hout1, hw1⟩ := h1
      subst hout1
      subst hw1
      have hw1col :
          ({ wg with col := wg.col ++ [⟨p, u, 0⟩], callIdx := wg.callIdx + 1 } : W).col =
            w.col ++ [⟨p, u, 0⟩] := by
        show wg.col ++ [⟨p, u, 0⟩] = w.col ++ [⟨p, u, 0⟩]
        rw [hcolg]
      have hfa1 :
          ∀ n, ({ wg with col := wg.col ++ [⟨p, u, 0⟩],
                          callIdx := wg.callIdx + 1 } : W).failAt n = none := by
        intro n
        show wg.failAt n = none
        rw [hfag]
        exact hnf n
      have hfind2 : MongoService.find_short_url_path_by_long_url
          ({ wg with col := wg.col ++ [⟨p, u, 0⟩], callIdx := wg.callIdx + 1 } : W).col
          u = some (.s p) := by
        rw [hw1col]
        exact find_by_long_append_new w.col u p hfl
      have hbody2 := gen_body_found protocol domain glF (bf2 + 1) u p
        { wg with col := wg.col ++ [⟨p, u, 0⟩], callIdx := wg.callIdx + 1 }
        hu hfind2 hpne (hfa1 _)
      have h2 : URLShortenerApp.generate_short_url protocol domain glF (bf2 + 1)
          (genReq u)
          { wg with col := wg.col ++ [⟨p, u, 0⟩], callIdx := wg.callIdx + 1 } d =
          some (⟨.inl (.resp ⟨200, .json (.obj [("short_url",
              .str (URLShortenerApp.generate_full_url protocol domain p))])⟩),
            [], 0 + 1, d⟩,
            { wg with col := wg.col ++ [⟨p, u, 0⟩], callIdx := wg.callIdx + 1 + 1 }) := by
        unfold URLShortenerApp.generate_short_url
        exact backoffLoop_ok _ backoffFactor borderSleepTime bf2 d 0 [] _ _ _ hd hbody2
      have hcnt1 : countLong u (w.col ++ [⟨p, u, 0⟩]) = 1 := by
        rw [countLong_append, hcnt0, countLong_singleton]
      refine ⟨.resp ⟨200, .json (.obj [("short_url",
          .str (URLShortenerApp.generate_full_url protocol domain p))])⟩,
        _, _, rfl, h2, rfl, ?_, ?_, ?_⟩
      · show wg.col ++ [⟨p, u, 0⟩] = wg.col ++ [⟨p, u, 0⟩]
        rfl
      · rw [hw1col]
        exact hcnt1
      · show countLong u (wg.col ++ [⟨p, u, 0⟩]) = 1
        rw [hcolg]
        exact hcnt1
  · -- a mapping for u already exists: both calls return its stored path
    have hm := List.mem_of_find?_eq_some hfl
    have hfind : MongoService.find_short_url_path_by_long_url w.col u =
        some (.s m.short_url_path) := by
      rw [find_by_long_eq, hfl]
      rfl
    have hnem : m.short_url_path ≠ "" := hempty m hm
    rw [gen_body_found protocol domain glF (bf1 + 1) u m.short_url_path w hu hfind hnem
      (hnf _)] at h1
    simp only [] at h1
    simp only [Option.some.injEq, Prod.mk.injEq] at h1
    obtain ⟨hout1, hw1⟩ := h1
    subst hout1
    subst hw1
    have hone : countLong u w.col = 1 :=
      Nat.le_antisymm hcount (countLong_pos_of_find w.col u m hfl)
    have hfind2 : MongoService.find_short_url_path_by_long_url
        ({ w with callIdx := w.callIdx + 1 } : W).col u = some (.s m.short_url_path) :=
      hfind
    have hbody2 := gen_body_found protocol domain glF (bf2 + 1) u m.short_url_path
      { w with callIdx := w.callIdx + 1 } hu hfind2 hnem (hnf _)
    have h2 : URLShortenerApp.generate_short_url protocol domain glF (bf2 + 1)
        (genReq u) { w with callIdx := w.callIdx + 1 } d =
        some (⟨.inl (.resp ⟨200, .json (.obj [("short_url",
            .str (URLShortenerApp.generate_full_url protocol domain
              m.short_url_path))])⟩), [], 0 + 1, d⟩,
          { w with callIdx := w.callIdx + 1 + 1 }) := by
      unfold URLShortenerApp.generate_short_url
      exact backoffLoop_ok _ backoffFactor borderSleepTime bf2 d 0 [] _ _ _ hd hbody2
    exact ⟨.resp ⟨200, .json (.obj [("short_url",
        .str (URLShortenerApp.generate_full_url protocol domain m.short_url_path))])⟩,
      _, _, rfl, h2, rfl, rfl, hone, hone⟩

/-- Witness for C7 at a concrete run: first call stores "abcde" for the long
URL and the theorem yields the second call's identical response. -/
theorem c7_generate_idempotent_witness :
    ∃ r1 out2 w2,
      (⟨.inl (.resp ⟨200, .json (.obj [("short_url",
          .str "https://svc.test/abcde")])⟩), [], 1, 1⟩ : BOut HandlerResult).result =
        .inl r1 ∧
      URLShortenerApp.generate_short_url "https" "svc.test" glFuelDefault (15 + 1)
        (genReq "https://example.com/a")
        ⟨[⟨"abcde", "https://example.com/a", 0⟩], fun n => n, 5, fun _ => none, 3, 1⟩
        (⟨.inl (.resp ⟨200, .json (.obj [("short_url",
          .str "https://svc.test/abcde")])⟩), [], 1, 1⟩ : BOut HandlerResult).delay =
        some (out2, w2) ∧
      out2.result = .inl r1 ∧
      w2.col = (⟨[⟨"abcde", "https://example.com/a", 0⟩], fun n => n, 5,
        fun _ => none, 3, 1⟩ : W).col ∧
      countLong "https://example.com/a"
        (⟨[⟨"abcde", "https://example.com/a", 0⟩], fun n => n, 5,
          fun _ => none, 3, 1⟩ : W).col = 1 ∧
      countLong "https://example.com/a" w2.col = 1 :=
  c7_generate_idempotent "https" "svc.test" glFuelDefault 15 15 1
    "https://example.com/a" ⟨[], fun n => n, 0, fun _ => none, 0, 1⟩
    (by decide) (fun _ => rfl) (by decide) (by intro m hm; simp at hm)
    (by decide) (by decide)
    ⟨.inl (.resp ⟨200, .json (.obj [("short_url",
      .str "https://svc.test/abcde")])⟩), [], 1, 1⟩
    ⟨[⟨"abcde", "https://example.com/a", 0⟩], fun n => n, 5, fun _ => none, 3, 1⟩
    rfl

theorem insert_ok_shape (col : List Mapping) (p u : String) (col' : List Mapping)
    (h : MongoService.insert_url_mapping col p u = .ok col') :
    col' = col ++ [⟨p, u, 0⟩] ∧
      col.any (fun m => m.short_url_path == p) = false ∧
      col.any (fun m => m.long_url == u) = false := by
  unfold MongoService.insert_url_mapping at h
  by_cases hc : (col.any (fun m => m.short_url_path == p) ||
      col.any (fun m => m.long_url == u)) = true
  · rw [if_pos hc] at h
    simp at h
  · rw [if_neg hc] at h
    simp only [Bool.or_eq_true, not_or] at hc
    simp at h
    exact ⟨h.symm, by simpa using hc.1, by simpa using hc.2⟩

theorem any_false_find_none {α : Type} (l : List α) (pred : α → Bool)
    (h : l.any pred = false) : l.find? pred = none := by
  rw [List.find?_eq_none]
  rw [List.any_eq_false] at h
  exact h

theorem callFindPathByLong_col (u : String) (w : W) :
    ((callFindPathByLong u w).2).col = w.col := by
  unfold callFindPathByLong stRun
  rcases w.failAt w.callIdx <;> simp

theorem callFindLongByPath_col (p : String) (w : W) :
    ((callFindLongByPath p w).2).col = w.col := by
  unfold callFindLongByPath stRun
  rcases w.failAt w.callIdx <;> simp

theorem callIsExist_col (p : String) (w : W) :
    ((callIsExist p w).2).col = w.col := by
  unfold callIsExist stRun
  rcases w.failAt w.callIdx <;> simp

theorem callFindVisits_col (p : String) (w : W) :
    ((callFindVisits p w).2).col = w.col := by
  unfold callFindVisits stRun
  rcases w.failAt w.callIdx <;> simp

theorem callInsert_mono (p u : String) (w : W) :
    MonoList w.col ((callInsert p u w).2).col := by
  unfold callInsert stRun
  rcases w.failAt w.callIdx with _ | e
  · rcases hins : MongoService.insert_url_mapping w.col p u with e | col'
    · simp [hins]
      exact monoList_refl _
    · obtain ⟨hshape, _, _⟩ := insert_ok_shape w.col p u col' hins
      simp [hins]
      rw [hshape]
      exact monoList_append w.col [⟨p, u, 0⟩]
  · simp
    exact monoList_refl _

theorem callIncrement_mono (p : String) (w : W) :
    MonoList w.col ((callIncrement p w).2).col := by
  unfold callIncrement stRun
  rcases w.failAt w.callIdx with _ | e
  · simp
    exact monoList_increment w.col p
  · simp
    exact monoList_refl _

theorem unique_path_loop_col :
    ∀ (fuel : Nat) (w : W) (res : Except Exc String) (w' : W),
      URLShortenerApp.unique_path_loop fuel w = some (res, w') → w'.col = w.col := by
  intro fuel
  induction fuel with
  | zero =>
    intro w res w' h
    simp [URLShortenerApp.unique_path_loop] at h
  | succ n ih =>
    intro w res w' h
    unfold URLShortenerApp.unique_path_loop at h
    simp only [] at h
    rcases hgp : URLShortenerApp.generate_short_url_path w with ⟨p0, wg⟩
    rw [hgp] at h
    have hg2 := congrArg Prod.snd hgp
    simp only [] at hg2
    have hwgcol : wg.col = w.col := by
      rw [← hg2]
      rfl
    rcases hce : callIsExist p0 wg with ⟨cr, w2⟩
    rw [hce] at h
    have hw2 : w2.col = wg.col := by
      have := callIsExist_col p0 wg
      rw [hce] at this
      exact this
    rcases cr with e | b
    · simp at h
      rw [← h.2, hw2]
      exact hwgcol
    · simp only [] at h
      by_cases hb : b = true
      · rw [if_pos hb] at h
        rw [ih w2 res w' h, hw2]
        exact hwgcol
      · rw [if_neg hb] at h
        simp at h
        rw [← h.2, hw2]
        exact hwgcol

theorem generate_unique_col (glF bf : Nat) (w : W) (out : BOut String) (w' : W)
    (h : URLShortenerApp.generate_unique_short_url_path glF bf w = some (out, w')) :
    w'.col = w.col := by
  unfold URLShortenerApp.generate_unique_short_url_path at h
  rcases hb : backoffLoop (fun w0 => URLShortenerApp.unique_path_loop glF w0)
      backoffFactor borderSleepTime bf w.innerDelay 0 [] w with _ | ⟨out2, w2⟩ <;>
    rw [hb] at h
  · simp at h
  · have htr : ∀ {a b c : W}, a.col = b.col → b.col = c.col → a.col = c.col :=
      fun hab hbc => hab.trans hbc
    have hcols : w.col = w2.col :=
      backoffLoop_preserves (fun a b => a.col = b.col) (fun _ => rfl) htr
        (fun w0 => URLShortenerApp.unique_path_loop glF w0)
        backoffFactor borderSleepTime
        (fun s r s' hs => (unique_path_loop_col glF s r s' hs).symm)
        bf w.innerDelay 0 [] w out2 w2 hb
    simp at h
    rw [← h.2]
    exact hcols.symm

theorem generate_and_insert_mono (protocol domain : String) (glF bf : Nat)
    (u : String) (w : W) (r : Except Exc HandlerResult) (w' : W)
    (h : URLShortenerApp.generate_and_insert protocol domain glF bf u w = some (r, w')) :
    MonoList w.col w'.col := by
  unfold URLShortenerApp.generate_and_insert at h
  rcases hg : URLShortenerApp.generate_unique_short_url_path glF bf w
      with _ | ⟨out, w2⟩ <;> rw [hg] at h
  · simp at h
  · simp only [] at h
    have hw2 : w2.col = w.col := generate_unique_col glF bf w out w2 hg
    rcases hres : out.result with p | resp <;> rw [hres] at h
    · simp only [] at h
      rcases hins : callInsert p u w2 with ⟨ir, w3⟩
      rw [hins] at h
      have hmono3 : MonoList w2.col w3.col := by
        have := callInsert_mono p u w2
        rw [hins] at this
        exact this
      rcases ir with e | a
      · simp at h
        rw [← h.2, ← hw2]
        exact hmono3
      · simp at h
        rw [← h.2, ← hw2]
        exact hmono3
    · simp at h
      rw [← h.2, ← hw2]
      exact monoList_refl _

theorem gen_body_mono (protocol domain : String) (glF bf : Nat) (req : Option Json)
    (w : W) (r : Except Exc HandlerResult) (w' : W)
    (h : URLShortenerApp.generate_short_url_body protocol domain glF bf req w =
      some (r, w')) : MonoList w.col w'.col := by
  unfold URLShortenerApp.generate_short_url_body at h
  rcases req with _ | data
  · simp at h
    rw [← h.2]
    exact monoList_refl _
  · cases data with
    | obj fields =>
      simp only [] at h
      rcases hv : validationErrors fields with _ | errs <;> rw [hv] at h <;>
        simp only [] at h
      · by_cases hlu : jsonFieldString (.obj fields) "long_url" = ""
        · rw [if_pos hlu] at h
          simp at h
          rw [← h.2]
          exact monoList_refl _
        · rw [if_neg hlu] at h
          rcases hc : callFindPathByLong (jsonFieldString (.obj fields) "long_url") w
            with ⟨cr, w1⟩
          rw [hc] at h
          have hw1 : w1.col = w.col := by
            have := callFindPathByLong_col (jsonFieldString (.obj fields) "long_url") w
            rw [hc] at this
            exact this
          rcases cr with e | rv
          · simp at h
            rw [← h.2, ← hw1]
            exact monoList_refl _
          · simp only [] at h
            rcases rv with _ | v
            · have := generate_and_insert_mono protocol domain glF bf
                (jsonFieldString (.obj fields) "long_url") w1 r w' h
              rw [← hw1]
              exact this
            · rcases v with p | k
              · simp only [] at h
                by_cases hpe : p = ""
                · rw [if_pos hpe] at h
                  have := generate_and_insert_mono protocol domain glF bf
                    (jsonFieldString (.obj fields) "long_url") w1 r w' h
                  rw [← hw1]
                  exact this
                · rw [if_neg hpe] at h
                  simp at h
                  rw [← h.2, ← hw1]
                  exact monoList_refl _
              · have := generate_and_insert_mono protocol domain glF bf
                  (jsonFieldString (.obj fields) "long_url") w1 r w' h
                rw [← hw1]
                exact this
      · simp at h
        rw [← h.2]
        exact monoList_refl _
    | null => simp at h; rw [← h.2]; exact monoList_refl _
    | bool b => simp at h; rw [← h.2]; exact monoList_refl _
    | num n => simp at h; rw [← h.2]; exact monoList_refl _
    | str s => simp at h; rw [← h.2]; exact monoList_refl _
    | arr xs => simp at h; rw [← h.2]; exact monoList_refl _

theorem redirect_mono (p : String) (w : W) :
    MonoList w.col ((URLShortenerApp.redirect_to_original_url p w).2).col := by
  unfold URLShortenerApp.redirect_to_original_url
  by_cases hp : p = ""
  · rw [if_pos hp]
    exact monoList_refl _
  · rw [if_neg hp]
    rcases hcf : callFindLongByPath p w with ⟨cr, w1⟩
    have hw1 : w1.col = w.col := by
      have := callFindLongByPath_col p w
      rw [hcf] at this
      exact this
    rcases cr with e | rv
    · simp only []
      rw [hw1]
      exact monoList_refl _
    · rcases rv with _ | v
      · simp only []
        rw [hw1]
        exact monoList_refl _
      · rcases v with lu | k
        · simp only []
          by_cases hlu : lu = ""
          · rw [if_pos hlu]
            simp only []
            rw [hw1]
            exact monoList_refl _
          · rw [if_neg hlu]
            rcases hinc : callIncrement p w1 with ⟨ir, w2⟩
            have hm : MonoList w1.col w2.col := by
              have := callIncrement_mono p w1
              rw [hinc] at this
              exact this
            rcases ir with e | a <;> simp only []
            · rw [← hw1]
              exact hm
            · rw [← hw1]
              exact hm
        · simp only []
          rw [hw1]
          exact monoList_refl _

theorem get_long_body_col (p : String) (w : W) (r : Except Exc HandlerResult) (w' : W)
    (h : URLShortenerApp.get_long_url_body p w = some (r, w')) : w'.col = w.col := by
  unfold URLShortenerApp.get_long_url_body at h
  by_cases hp : p = ""
  · rw [if_pos hp] at h
    simp at h
    rw [← h.2]
  · rw [if_neg hp] at h
    rcases hcf : callFindLongByPath p w with ⟨cr, w1⟩
    rw [hcf] at h
    have hw1 : w1.col = w.col := by
      have := callFindLongByPath_col p w
      rw [hcf] at this
      exact this
    rcases cr with e | rv
    · simp at h
      rw [← h.2]
      exact hw1
    · rcases rv with _ | v
      · simp at h
        rw [← h.2]
        exact hw1
      · rcases v with lu | k
        · simp only [] at h
          by_cases hlu : lu = ""
          · rw [if_pos hlu] at h
            simp at h
            rw [← h.2]
            exact hw1
          · rw [if_neg hlu] at h
            simp at h
            rw [← h.2]
            exact hw1
        · simp at h
          rw [← h.2]
          exact hw1

theorem visits_body_col (p : String) (w : W) (r : Except Exc HandlerResult) (w' : W)
    (h : URLShortenerApp.get_short_url_visits_body p w = some (r, w')) :
    w'.col = w.col := by
  unfold URLShortenerApp.get_short_url_visits_body at h
  by_cases hp : p = ""
  · rw [if_pos hp] at h
    simp at h
    rw [← h.2]
  · rw [if_neg hp] at h
    rcases hcf : callFindVisits p w with ⟨cr, w1⟩
    rw [hcf] at h
    have hw1 : w1.col = w.col := by
      have := callFindVisits_col p w
      rw [hcf] at this
      exact this
    rcases cr with e | rv <;> simp at h <;> rw [← h.2] <;> exact hw1

theorem redirect_success_inv (w : W) (p lu : String) (w' : W)
    (h : URLShortenerApp.redirect_to_original_url p w = (.ok (.redirect lu), w')) :
    (∃ v, visitsOf w.col p = some v ∧ visitsOf w'.col p = some (v + 1)) ∧
    (∀ q, q ≠ p → visitsOf w'.col q = visitsOf w.col q) := by
  unfold URLShortenerApp.redirect_to_original_url at h
  by_cases hp : p = ""
  · rw [if_pos hp] at h
    simp at h
  · rw [if_neg hp] at h
    rcases hcf : callFindLongByPath p w with ⟨cr, w1⟩
    rw [hcf] at h
    have hw1 : w1.col = w.col := by
      have := callFindLongByPath_col p w
      rw [hcf] at this
      exact this
    rcases cr with e | rv
    · simp at h
    · rcases rv with _ | v
      · simp at h
      · rcases v with lu0 | k
        · simp only [] at h
          by_cases hlu : lu0 = ""
          · rw [if_pos hlu] at h
            simp at h
          · rw [if_neg hlu] at h
            rcases hinc : callIncrement p w1 with ⟨ir, w2⟩
            rw [hinc] at h
            rcases ir with e | a
            · simp at h
            · simp only [Prod.mk.injEq, Except.ok.injEq,
                HandlerResult.redirect.injEq] at h
              obtain ⟨_, hw'⟩ := h
              have hfind : MongoService.find_long_url_by_short_url_path w.col p =
                  some (.s lu0) := by
                unfold callFindLongByPath stRun at hcf
                rcases hfa : w.failAt w.callIdx with _ | e <;> rw [hfa] at hcf <;>
                  simp at hcf
                exact hcf.1
              have hcolinc : w2.col =
                  MongoService.increment_short_url_path_counter w1.col p := by
                unfold callIncrement stRun at hinc
                rcases hfa1 : w1.failAt w1.callIdx with _ | e <;> rw [hfa1] at hinc <;>
                  simp at hinc
                rw [← hinc]
              rw [find_long_by_path_eq] at hfind
              rcases hfm : w.col.find? (fun m => m.short_url_path == p) with _ | m <;>
                rw [hfm] at hfind
              · simp at hfind
              · have hvp : visitsOf w.col p = some m.visits := by
                  unfold visitsOf
                  rw [hfm]
                  rfl
                constructor
                · refine ⟨m.visits, hvp, ?_⟩
                  rw [← hw', hcolinc, visitsOf_increment, if_pos rfl, hw1, hvp]
                  rfl
                · intro q hq
                  rw [← hw', hcolinc, visitsOf_increment, if_neg hq, hw1]
        · simp at h

theorem runOp_mono (protocol domain : String) (op : OpCall) (sys : Sys) :
    MonoList sys.w.col (runOp protocol domain op sys).w.col := by
  have htr2 : ∀ {a b c : W}, MonoList a.col b.col → MonoList b.col c.col →
      MonoList a.col c.col := fun hab hbc => monoList_trans hab hbc
  cases op with
  | generateOp req =>
    dsimp only [runOp]
    rcases hgen : URLShortenerApp.generate_short_url protocol domain glFuelDefault
        bFuelDefault req sys.w sys.delays.generateDelay with _ | ⟨out, w'⟩
    · exact monoList_refl _
    · have hgen' := hgen
      unfold URLShortenerApp.generate_short_url at hgen'
      exact backoffLoop_preserves (fun a b => MonoList a.col b.col)
        (fun s => monoList_refl _) htr2 _ backoffFactor borderSleepTime
        (fun s r s' hs =>
          gen_body_mono protocol domain glFuelDefault bFuelDefault req s r s' hs)
        bFuelDefault sys.delays.generateDelay 0 [] sys.w out w' hgen'
  | redirectOp p => exact redirect_mono p sys.w
  | getLongOp p =>
    dsimp only [runOp]
    rcases hgen : URLShortenerApp.get_long_url bFuelDefault p sys.w
        sys.delays.getLongDelay with _ | ⟨out, w'⟩
    · exact monoList_refl _
    · have hgen' := hgen
      unfold URLShortenerApp.get_long_url at hgen'
      exact backoffLoop_preserves (fun a b => MonoList a.col b.col)
        (fun s => monoList_refl _) htr2 _ backoffFactor borderSleepTime
        (fun s r s' hs => by
          show MonoList s.col s'.col
          rw [get_long_body_col p s r s' hs]
          exact monoList_refl _)
        bFuelDefault sys.delays.getLongDelay 0 [] sys.w out w' hgen'
  | visitsOp p =>
    dsimp only [runOp]
    rcases hgen : URLShortenerApp.get_short_url_visits bFuelDefault p sys.w
        sys.delays.visitsDelay with _ | ⟨out, w'⟩
    · exact monoList_refl _
    · have hgen' := hgen
      unfold URLShortenerApp.get_short_url_visits at hgen'
      exact backoffLoop_preserves (fun a b => MonoList a.col b.col)
        (fun s => monoList_refl _) htr2 _ backoffFactor borderSleepTime
        (fun s r s' hs => by
          show MonoList s.col s'.col
          rw [visits_body_col p s r s' hs]
          exact monoList_refl _)
        bFuelDefault sys.delays.visitsDelay 0 [] sys.w out w' hgen'

theorem runOps_mono (protocol domain : String) :
    ∀ (ops : List OpCall) (sys : Sys),
      MonoList sys.w.col (runOps protocol domain ops sys).w.col := by
  intro ops
  induction ops with
  | nil =>
    intro sys
    exact monoList_refl _
  | cons op rest ih =>
    intro sys
    unfold runOps
    rw [List.foldl_cons]
    exact monoList_trans (runOp_mono protocol domain op sys)
      (ih (runOp protocol domain op sys))

/-- C8: counter monotonicity.  First conjunct: a successful insert creates
the mapping with `visits = 0`.  Second conjunct: every successful
`ResolveAndRedirect` on a short path increments that path's counter by
exactly 1 and leaves every other counter unchanged.  Third conjunct: under
any sequence of endpoint operations, with any failure injections, no stored
visit counter ever decreases. -/
theorem c8_counter_monotonic :
    (∀ (col : List Mapping) (p u : String) (col' : List Mapping),
        MongoService.insert_url_mapping col p u = .ok col' →
        visitsOf col' p = some 0) ∧
    (∀ (w : W) (p lu : String) (w' : W),
        URLShortenerApp.redirect_to_original_url p w = (.ok (.redirect lu), w') →
        (∃ v, visitsOf w.col p = some v ∧ visitsOf w'.col p = some (v + 1)) ∧
        (∀ q, q ≠ p → visitsOf w'.col q = visitsOf w.col q)) ∧
    (∀ (protocol domain : String) (ops : List OpCall) (sys : Sys),
        MonoList sys.w.col (runOps protocol domain ops sys).w.col) := by
  refine ⟨?_, ?_, ?_⟩
  · intro col p u col' h
    obtain ⟨hshape, hshort, _⟩ := insert_ok_shape col p u col' h
    rw [hshape]
    exact visitsOf_insert_new col p u (any_false_find_none col _ hshort)
  · intro w p lu w' h
    exact redirect_success_inv w p lu w' h
  · intro protocol domain ops sys
    exact runOps_mono protocol domain ops sys

/-- Witness for C8 at concrete inputs: insert of "abc12" starts at 0 visits,
a concrete successful redirect moves it from 0 to 1, and a concrete operation
sequence never lowers it. -/
theorem c8_counter_monotonic_witness :
    visitsOf [⟨"abc12", "https://example.com/a", 0⟩] "abc12" = some 0 ∧
    ((∃ v, visitsOf [⟨"abc12", "https://example.com/a", 0⟩] "abc12" = some v ∧
        visitsOf (⟨[⟨"abc12", "https://example.com/a", 1⟩], fun _ => 0, 0,
          fun _ => none, 2, 1⟩ : W).col "abc12" = some (v + 1)) ∧
      (∀ q, q ≠ "abc12" →
        visitsOf (⟨[⟨"abc12", "https://example.com/a", 1⟩], fun _ => 0, 0,
          fun _ => none, 2, 1⟩ : W).col q =
        visitsOf [⟨"abc12", "https://example.com/a", 0⟩] q)) ∧
    MonoList [⟨"abc12", "https://example.com/a", 3⟩]
      (runOps "https" "svc.test" [.redirectOp "abc12", .visitsOp "abc12"]
        ⟨⟨[⟨"abc12", "https://example.com/a", 3⟩], fun _ => 0, 0, fun _ => none, 0, 1⟩,
          Delays.fresh⟩).w.col :=
  ⟨c8_counter_monotonic.1 [] "abc12" "https://example.com/a"
      [⟨"abc12", "https://example.com/a", 0⟩] rfl,
   c8_counter_monotonic.2.1
      ⟨[⟨"abc12", "https://example.com/a", 0⟩], fun _ => 0, 0, fun _ => none, 0, 1⟩
      "abc12" "https://example.com/a"
      ⟨[⟨"abc12", "https://example.com/a", 1⟩], fun _ => 0, 0, fun _ => none, 2, 1⟩
      rfl,
   c8_counter_monotonic.2.2 "https" "svc.test" [.redirectOp "abc12", .visitsOp "abc12"]
      ⟨⟨[⟨"abc12", "https://example.com/a", 3⟩], fun _ => 0, 0, fun _ => none, 0, 1⟩,
        Delays.fresh⟩⟩
